import Mathlib

/-!
# GraphicsTests: draw-order scheduler, colour-grading selector and PostEffect passes

A shallow embedding of `projects/GraphicsTests/src/main.cpp` (frame loop) and
`projects/GraphicsTests/src/PostEffect.cpp`.

Conventions of the embedding
* A pointer (`Shader::sptr`, `ShaderMaterial::sptr`, `Framebuffer*`) is its address, a `Nat`;
  `0` is `nullptr`.  Pointer comparison `<` is comparison of addresses.
* The `float` selector `colorOption` is a rational number.
* Calls into the GPU are recorded as an explicit list of operations, in program order, and the
  ambient OpenGL context is an explicit value threaded through the calls.
-/

namespace GraphicsTests

/-! ## Frame loop of `main.cpp` -/

/-- The four colour cubes loaded in `main` (main.cpp 162-166): `defaultCube` is the Neutral
table, `coolCube` Cool, `warmCube` Warm and `customCube` Custom. -/
inductive LUT3D where
  | defaultCube
  | coolCube
  | warmCube
  | customCube
  deriving DecidableEq, Repr

/-- GPU-facing operations issued by one iteration of the game loop (main.cpp 585-648), each
named after the call that issues it.  Programs, materials and meshes are given by address. -/
inductive FrameOp where
  | framebufferBind
  | framebufferUnbind
  | shaderBind (shader : Nat)
  | shaderUnBind (shader : Nat)
  | setupShaderForFrame (shader : Nat)
  | materialApply (material : Nat)
  | renderVAO (shader mesh : Nat)
  | bindColorAsTexture (colorBuffer slot : Nat)
  | unbindTexture (slot : Nat)
  | lutBind (cube : LUT3D) (slot : Nat)
  | lutUnbind (cube : LUT3D) (slot : Nat)
  | drawFullscreenQuad
  deriving DecidableEq, Repr

/-- The `if / else if` chain on `colorOption` of main.cpp 613-644: the operations issued by
the branch that is taken (none when no branch is taken). -/
def lutBranch (colorOption : ℚ) : List FrameOp :=
  if colorOption < 1 then
    [.lutBind .defaultCube 30, .drawFullscreenQuad, .lutUnbind .defaultCube 30]
  else if colorOption < 2 then
    [.lutBind .coolCube 30, .drawFullscreenQuad, .lutUnbind .coolCube 30]
  else if colorOption < 3 then
    [.lutBind .warmCube 30, .drawFullscreenQuad, .lutUnbind .warmCube 30]
  else if colorOption = 3 then
    [.lutBind .customCube 30, .drawFullscreenQuad, .lutUnbind .customCube 30]
  else
    []

/-- The lookup tables bound by a sequence of operations, in order, one entry per bind. -/
def boundCubes (ops : List FrameOp) : List LUT3D :=
  ops.filterMap fun op =>
    match op with
    | .lutBind cube _ => some cube
    | _ => none

/-- A `ShaderMaterial::sptr` as seen by the frame loop: the address held by the pointer
(`addr`, the material identity) together with the two fields the loop reads through it,
`Material->Shader` (address of the Program) and `Material->RenderLayer`. -/
structure ShaderMaterial where
  addr : Nat
  Shader : Nat
  RenderLayer : Int
  deriving DecidableEq, Repr

/-- A render command: the `RendererComponent` of one entity (mesh and material). -/
structure RendererComponent where
  Mesh : Nat
  Material : ShaderMaterial
  deriving DecidableEq, Repr

/-- The lambda passed to `renderGroup.sort<RendererComponent>` (main.cpp 569-583). -/
def comparator (l r : RendererComponent) : Bool :=
  if l.Material.RenderLayer < r.Material.RenderLayer then true
  else if l.Material.RenderLayer > r.Material.RenderLayer then false
  else if l.Material.Shader < r.Material.Shader then true
  else if l.Material.Shader > r.Material.Shader then false
  else if l.Material.addr < r.Material.addr then true
  else if l.Material.addr > r.Material.addr then false
  else false

/-- The sort key named by the comments of the comparator: render layer, then Program
identity, then material identity, ordered lexicographically. -/
def sortKey (c : RendererComponent) : ℤ ×ₗ ℕ ×ₗ ℕ :=
  toLex (c.Material.RenderLayer, toLex (c.Material.Shader, c.Material.addr))

/-- The variables captured by the `renderGroup.each` lambda (main.cpp 586-587) together with
the operations issued so far. -/
structure IssueState where
  current : Nat
  currentMat : Nat
  ops : List FrameOp
  deriving DecidableEq, Repr

/-- The first `if` of the `renderGroup.each` lambda (main.cpp 594-598). -/
def bindIfChanged (st : IssueState) (renderer : RendererComponent) : IssueState :=
  if st.current ≠ renderer.Material.Shader then
    { st with
      current := renderer.Material.Shader
      ops := st.ops ++ [.shaderBind renderer.Material.Shader,
                        .setupShaderForFrame renderer.Material.Shader] }
  else st

/-- The second `if` of the `renderGroup.each` lambda (main.cpp 600-603). -/
def applyIfChanged (st : IssueState) (renderer : RendererComponent) : IssueState :=
  if st.currentMat ≠ renderer.Material.addr then
    { st with
      currentMat := renderer.Material.addr
      ops := st.ops ++ [.materialApply renderer.Material.addr] }
  else st

/-- One call of the `renderGroup.each` lambda (main.cpp 592-606). -/
def renderOne (st : IssueState) (renderer : RendererComponent) : IssueState :=
  let st1 := bindIfChanged st renderer
  let st2 := applyIfChanged st1 renderer
  { st2 with ops := st2.ops ++ [.renderVAO renderer.Material.Shader renderer.Mesh] }

/-- The issuance loop (main.cpp 585-606): `current` and `currentMat` start as `nullptr` and
the lambda runs once per command, in the order of the group. -/
def issue (cmds : List RendererComponent) : IssueState :=
  cmds.foldl renderOne { current := 0, currentMat := 0, ops := [] }

/-- Number of `Shader::Bind` calls in a sequence of operations. -/
def shaderBinds (ops : List FrameOp) : Nat :=
  ops.countP fun op => match op with
    | .shaderBind _ => true
    | _ => false

/-- Number of `SetupShaderForFrame` calls in a sequence of operations. -/
def shaderSetups (ops : List FrameOp) : Nat :=
  ops.countP fun op => match op with
    | .setupShaderForFrame _ => true
    | _ => false

/-- Number of `ShaderMaterial::Apply` calls in a sequence of operations. -/
def materialApplies (ops : List FrameOp) : Nat :=
  ops.countP fun op => match op with
    | .materialApply _ => true
    | _ => false

/-- Number of `RenderVAO` calls (mesh draws) in a sequence of operations. -/
def meshDraws (ops : List FrameOp) : Nat :=
  ops.countP fun op => match op with
    | .renderVAO _ _ => true
    | _ => false

/-- Number of maximal contiguous runs of equal values in a list: the list is split where two
neighbours differ and the pieces are counted. -/
def runs (xs : List Nat) : Nat :=
  (xs.splitBy (fun a b => a == b)).length

/-- Number of positions of `cur :: xs` at which an element differs from its predecessor. -/
def changes : Nat → List Nat → Nat
  | _, [] => 0
  | cur, x :: xs => (if cur ≠ x then 1 else 0) + changes x xs

/-- Modelled from the spec: the sorting algorithm behind `renderGroup.sort`, which belongs to
the entity-component library and is not part of the sources at hand.  The spec (4.5) asks for
a stable sort by the comparator; this is insertion sort, which puts a command before the first
command that the comparator does not place before it, so equal keys keep their input order. -/
def sortCommands (cmds : List RendererComponent) : List RendererComponent :=
  cmds.insertionSort fun a b => comparator b a = false

/-- The example of the spec (section 8): 100 commands over 5 materials and 2 Programs.
Command `i` has mesh `i` and material `10 + i % 5`; materials 10, 11 and 12 use Program 5 in
render layer 0, materials 13 and 14 use Program 6 in render layer 100. -/
def hundredCommands : List RendererComponent :=
  (List.range 100).map fun i =>
    ⟨i, ⟨10 + i % 5, if i % 5 < 3 then 5 else 6, if i % 5 < 3 then 0 else 100⟩⟩

/-! ## `PostEffect.cpp` -/

/-- Stage kinds handed to `LoadShaderPartFromFile`. -/
inductive ShaderStage where
  | GL_VERTEX_SHADER
  | GL_FRAGMENT_SHADER
  deriving DecidableEq, Repr

/-- Modelled from the spec: the `Shader` class (Program), declared in `Shader.h`, which is
not among the sources: the stages loaded into the Program, each by asset path and kind, and
whether the Program has been linked (spec 3 and 4.2). -/
structure Shader where
  parts : List (String × ShaderStage)
  linked : Bool
  deriving DecidableEq, Repr

/-- Modelled from the spec: `Shader::Create`, a Program with no stage, not linked. -/
def Shader.Create : Shader :=
  { parts := [], linked := false }

/-- Modelled from the spec: `Shader::LoadShaderPartFromFile`, spec 4.2 `AddStage`, which
accumulates one stage. -/
def Shader.LoadShaderPartFromFile (s : Shader) (path : String) (kind : ShaderStage) : Shader :=
  { s with parts := s.parts ++ [(path, kind)] }

/-- Modelled from the spec: `Shader::Link`, spec 4.2, which links the accumulated stages. -/
def Shader.Link (s : Shader) : Shader :=
  { s with linked := true }

/-- The Program built by `PostEffect::Init` (PostEffect.cpp 13-16). -/
def passthroughProgram : Shader :=
  ((Shader.Create.LoadShaderPartFromFile "shaders/passthrough_vert.glsl"
      ShaderStage.GL_VERTEX_SHADER).LoadShaderPartFromFile "shaders/passthrough_frag.glsl"
      ShaderStage.GL_FRAGMENT_SHADER).Link

/-- Colour formats handed to `AddColorTarget`. -/
inductive ColorFormat where
  | GL_RGBA8
  deriving DecidableEq, Repr

/-- Modelled from the spec: the `Framebuffer` class (RenderTarget), declared in
`Framebuffer.h`, which is not among the sources: the name of the GPU object (`handle`, never
0, which names the default destination), the formats of the colour attachments, whether a
depth attachment is present, and the dimensions (spec 3). -/
structure Framebuffer where
  handle : Nat
  colorTargets : List ColorFormat
  depthTarget : Bool
  width : Nat
  height : Nat
  deriving DecidableEq, Repr

/-- Modelled from the spec: `new Framebuffer()`, a target with no attachment; `name` is the
name under which the GPU knows the new object. -/
def Framebuffer.new (name : Nat) : Framebuffer :=
  { handle := name, colorTargets := [], depthTarget := false, width := 0, height := 0 }

/-- Modelled from the spec: `Framebuffer::AddColorTarget`, spec 4.1 `AddColorAttachment`. -/
def Framebuffer.AddColorTarget (fb : Framebuffer) (format : ColorFormat) : Framebuffer :=
  { fb with colorTargets := fb.colorTargets ++ [format] }

/-- Modelled from the spec: `Framebuffer::AddDepthTarget`, spec 4.1 `AddDepthAttachment`. -/
def Framebuffer.AddDepthTarget (fb : Framebuffer) : Framebuffer :=
  { fb with depthTarget := true }

/-- Modelled from the spec: `Framebuffer::Init`, spec 4.1 `Allocate(width, height)`. -/
def Framebuffer.Init (fb : Framebuffer) (width height : Nat) : Framebuffer :=
  { fb with width := width, height := height }

/-- Calls that reach the OpenGL context.  `useProgram none`, `bindFramebuffer 0` and
`bindTexture slot none` bind `GL_NONE`; `bindTexture slot (some (name, i))` selects texture
unit `slot` and binds colour attachment `i` of the framebuffer called `name` to it. -/
inductive GlCall where
  | useProgram (program : Option Shader)
  | bindFramebuffer (name : Nat)
  | bindTexture (slot : Nat) (texture : Option (Nat × Nat))
  | drawFullscreenQuad
  deriving DecidableEq, Repr

/-- The ambient OpenGL context, made explicit (spec 5 and 9): the active Program, the bound
draw destination (0 is the default destination, the screen), the texture bound to each
sampler unit, the colour content of every attachment (by framebuffer name and attachment
index) and the content of the screen. -/
structure GlContext (Img : Type) where
  program : Option Shader
  drawFramebuffer : Nat
  textureUnits : Nat → Option (Nat × Nat)
  color : Nat × Nat → Img
  screen : Img

/-- Modelled from the spec: the effect of one call on the context.  A fullscreen-quad draw
(spec 4.1 `RenderFullscreenQuad`, glossary "Fullscreen quad pass") resamples the texture on
sampler unit 0 through the active Program, whose transform is `sem`, into the bound draw
destination: colour attachment 0 of the bound framebuffer, or the screen when the default
destination is bound.  The input is read before the output is written; without a Program or
an input texture nothing is drawn. -/
def GlContext.exec {Img : Type} (sem : Shader → Img → Img) (ctx : GlContext Img) :
    GlCall → GlContext Img
  | .useProgram program => { ctx with program := program }
  | .bindFramebuffer name => { ctx with drawFramebuffer := name }
  | .bindTexture slot texture =>
      { ctx with textureUnits := Function.update ctx.textureUnits slot texture }
  | .drawFullscreenQuad =>
      match ctx.program, ctx.textureUnits 0 with
      | some s, some input =>
          if ctx.drawFramebuffer = 0 then
            { ctx with screen := sem s (ctx.color input) }
          else
            { ctx with
              color := Function.update ctx.color (ctx.drawFramebuffer, 0)
                (sem s (ctx.color input)) }
      | _, _ => ctx

/-- The context after a sequence of calls, executed in order. -/
def GlContext.run {Img : Type} (sem : Shader → Img → Img) (ctx : GlContext Img)
    (calls : List GlCall) : GlContext Img :=
  calls.foldl (GlContext.exec sem) ctx

/-- Modelled from the spec: `Shader::Bind`, spec 4.2, which activates the Program. -/
def Shader.Bind (s : Shader) : List GlCall :=
  [.useProgram (some s)]

/-- Modelled from the spec: `Framebuffer::Bind`, spec 4.1, which makes the target the active
draw destination. -/
def Framebuffer.Bind (fb : Framebuffer) : List GlCall :=
  [.bindFramebuffer fb.handle]

/-- Modelled from the spec: `Framebuffer::Unbind`, spec 4.1, which clears the active draw
destination. -/
def Framebuffer.Unbind (_fb : Framebuffer) : List GlCall :=
  [.bindFramebuffer 0]

/-- Modelled from the spec: `Framebuffer::BindColorAsTexture`, spec 4.1, which exposes one
colour attachment as the sampled input of a sampler unit; an index past the attachments of
the target addresses nothing. -/
def Framebuffer.BindColorAsTexture (fb : Framebuffer) (colorBuffer textureSlot : Nat) :
    Option (List GlCall) :=
  if colorBuffer < fb.colorTargets.length then
    some [.bindTexture textureSlot (some (fb.handle, colorBuffer))]
  else none

/-- Modelled from the spec: `Framebuffer::DrawFullscreenQuad`, which draws the
target-covering primitive into whatever draw destination is bound (spec 4.1
`RenderFullscreenQuad`; main.cpp 608-617 unbinds the target itself before this call). -/
def Framebuffer.DrawFullscreenQuad (_fb : Framebuffer) : List GlCall :=
  [.drawFullscreenQuad]

/-- Modelled from the spec: `Framebuffer::RenderToFSQ`, with which a pass "resolves into its
own target" (spec 4.3): the target is bound as draw destination, the fullscreen quad is drawn
and the destination is unbound. -/
def Framebuffer.RenderToFSQ (fb : Framebuffer) : List GlCall :=
  fb.Bind ++ fb.DrawFullscreenQuad ++ fb.Unbind

/-- The members of `PostEffect` (PostEffect.h 40-43): `_buffers` holds owned `Framebuffer*`
(`none` is `nullptr`), `_shaders` holds shared Programs. -/
structure PostEffect where
  _buffers : List (Option Framebuffer)
  _shaders : List Shader
  deriving DecidableEq, Repr

/-- A freshly constructed `PostEffect`: both vectors empty. -/
def PostEffect.fresh : PostEffect :=
  { _buffers := [], _shaders := [] }

/-- `PostEffect::Init` (PostEffect.cpp 3-18); `name` is the name of the framebuffer object
created by `new Framebuffer()`.  The new elements are appended at `index = size()`. -/
def PostEffect.Init (p : PostEffect) (width height name : Nat) : PostEffect :=
  { _buffers := p._buffers ++
      [some ((((Framebuffer.new name).AddColorTarget ColorFormat.GL_RGBA8).AddDepthTarget).Init
        width height)]
    _shaders := p._shaders ++ [passthroughProgram] }

/-- `PostEffect::BindBuffer` (PostEffect.cpp 77-80); `none` when the slot is absent or
null. -/
def PostEffect.BindBuffer (p : PostEffect) (index : Nat) : Option (List GlCall) :=
  match p._buffers[index]? with
  | some (some fb) => some fb.Bind
  | _ => none

/-- `PostEffect::UnbindBuffer` (PostEffect.cpp 82-85). -/
def PostEffect.UnbindBuffer (_p : PostEffect) : List GlCall :=
  [.bindFramebuffer 0]

/-- `PostEffect::BindColorAsTexture` (PostEffect.cpp 87-90). -/
def PostEffect.BindColorAsTexture (p : PostEffect) (index colorBuffer textureSlot : Nat) :
    Option (List GlCall) :=
  match p._buffers[index]? with
  | some (some fb) => fb.BindColorAsTexture colorBuffer textureSlot
  | _ => none

/-- `PostEffect::UnbindTexture` (PostEffect.cpp 97-102). -/
def PostEffect.UnbindTexture (_p : PostEffect) (textureSlot : Nat) : List GlCall :=
  [.bindTexture textureSlot none]

/-- `PostEffect::BindShader` (PostEffect.cpp 104-107); `none` when the slot is absent. -/
def PostEffect.BindShader (p : PostEffect) (index : Nat) : Option (List GlCall) :=
  match p._shaders[index]? with
  | some s => some s.Bind
  | none => none

/-- `PostEffect::UnbindShader` (PostEffect.cpp 109-112). -/
def PostEffect.UnbindShader (_p : PostEffect) : List GlCall :=
  [.useProgram none]

/-- `PostEffect::ApplyEffect` (PostEffect.cpp 20-31): the calls it makes, in order; `none`
when a slot it addresses is absent or null. -/
def PostEffect.ApplyEffect (p previousBuffer : PostEffect) : Option (List GlCall) :=
  match p.BindShader 0, previousBuffer.BindColorAsTexture 0 0 0, p._buffers[0]? with
  | some c1, some c2, some (some fb) =>
      some (c1 ++ c2 ++ fb.RenderToFSQ ++ previousBuffer.UnbindTexture 0 ++ p.UnbindShader)
  | _, _, _ => none

/-- `PostEffect::DrawToScreen` (PostEffect.cpp 33-44): the calls it makes, in order; `none`
when a slot it addresses is absent or null. -/
def PostEffect.DrawToScreen (p : PostEffect) : Option (List GlCall) :=
  match p.BindShader 0, p.BindColorAsTexture 0 0 0, p._buffers[0]? with
  | some c1, some c2, some (some fb) =>
      some (c1 ++ c2 ++ fb.DrawFullscreenQuad ++ p.UnbindTexture 0 ++ p.UnbindShader)
  | _, _, _ => none

/-- One iteration of the loop of `PostEffect::Unload` (PostEffect.cpp 64-72) at index `i`:
a non-null slot is released (recorded with its index) and set to null. -/
def PostEffect.unloadStep (st : List (Option Framebuffer) × List (Nat × Framebuffer)) (i : Nat) :
    List (Option Framebuffer) × List (Nat × Framebuffer) :=
  match st.1[i]? with
  | some (some fb) => (st.1.set i none, st.2 ++ [(i, fb)])
  | _ => st

/-- `PostEffect::Unload` (PostEffect.cpp 62-75): the pass afterwards and the targets that
were released (`Framebuffer::Unload` and `delete`), each with the index of its slot, in the
order of release. -/
def PostEffect.Unload (p : PostEffect) : PostEffect × List (Nat × Framebuffer) :=
  let r := (List.range p._buffers.length).foldl PostEffect.unloadStep (p._buffers, [])
  ({ _buffers := r.1, _shaders := [] }, r.2)

/-- An initialised pass: slot 0 of `_buffers` is a non-null target with one RGBA8 colour
attachment plus depth, and slot 0 of `_shaders` is the passthrough Program. -/
def PostEffect.Initialised (p : PostEffect) : Bool :=
  match p._buffers[0]?, p._shaders[0]? with
  | some (some fb), some s =>
      fb.handle != 0 && fb.colorTargets == [ColorFormat.GL_RGBA8] && fb.depthTarget &&
        s == passthroughProgram
  | _, _ => false

/-- Name of the slot-0 target of a pass (0 when the slot is absent or null). -/
def PostEffect.target (p : PostEffect) : Nat :=
  match p._buffers[0]? with
  | some (some fb) => fb.handle
  | _ => 0

/-- The fullscreen-quad transform of a pass: the transform of its slot-0 Program. -/
def PostEffect.transform {Img : Type} (sem : Shader → Img → Img) (p : PostEffect) : Img → Img :=
  match p._shaders[0]? with
  | some s => sem s
  | none => id

/-- The calls of a chain: `next.ApplyEffect(prev)` for each neighbouring pair, in chain
order, and `DrawToScreen` on the last pass (spec 4.3, ordering contract). -/
def chainCalls : PostEffect → List PostEffect → Option (List GlCall)
  | last, [] => last.DrawToScreen
  | prev, next :: rest =>
      match next.ApplyEffect prev, chainCalls next rest with
      | some a, some r => some (a ++ r)
      | _, _ => none

/-- The slots that the loop of `Unload` releases among the first `k`: the non-null ones, each
with its index. -/
def PostEffect.releasedUpTo (bufs : List (Option Framebuffer)) (k : Nat) :
    List (Nat × Framebuffer) :=
  (List.range k).filterMap fun i =>
    match bufs[i]? with
    | some (some fb) => some (i, fb)
    | _ => none

/-- A context whose images are numbers: no Program active, every sampler unit unbound, every
colour attachment holding 5, the screen holding 0, and `bound` the bound draw destination. -/
def sampleContext (bound : Nat) : GlContext Nat :=
  { program := none
    drawFramebuffer := bound
    textureUnits := fun _ => none
    color := fun _ => 5
    screen := 0 }

/-- A Program semantics on number images: every Program adds 1. -/
def sampleSem : Shader → Nat → Nat :=
  fun _ img => img + 1

/-! ## Lifecycle of a pass -/

/-- Modelled from the spec: `Framebuffer::Reshape`, spec 4.1, which reallocates the storage
with new dimensions and keeps the attachments. -/
def Framebuffer.Reshape (fb : Framebuffer) (width height : Nat) : Framebuffer :=
  { fb with width := width, height := height }

/-- `PostEffect::Reshape` (PostEffect.cpp 46-52): every slot of `_buffers` is dereferenced;
`none` when one of them is null. -/
def PostEffect.Reshape (p : PostEffect) (width height : Nat) : Option PostEffect :=
  if p._buffers.all Option.isSome then
    some { p with _buffers := p._buffers.map (Option.map fun fb => fb.Reshape width height) }
  else none

/-- `PostEffect::Clear` (PostEffect.cpp 54-60): every slot of `_buffers` is dereferenced and
cleared; the names of the cleared targets, in order, or `none` when a slot is null. -/
def PostEffect.Clear (p : PostEffect) : Option (List Nat) :=
  if p._buffers.all Option.isSome then
    some (p._buffers.filterMap (Option.map fun fb => fb.handle))
  else none

/-- The calls that make up the life of a pass; `Init` carries the name of the framebuffer
object it creates. -/
inductive LifecycleCall where
  | Init (width height name : Nat)
  | Reshape (width height : Nat)
  | Clear
  | Unload
  deriving DecidableEq, Repr

/-- The pass after one call; `none` when the call dereferences a null slot. -/
def PostEffect.call (p : PostEffect) : LifecycleCall → Option PostEffect
  | .Init width height name => some (p.Init width height name)
  | .Reshape width height => p.Reshape width height
  | .Clear => (p.Clear).map fun _ => p
  | .Unload => some p.Unload.1

/-- The pass after a sequence of calls, made in order. -/
def PostEffect.calls : PostEffect → List LifecycleCall → Option PostEffect
  | p, [] => some p
  | p, c :: cs =>
      match p.call c with
      | some q => q.calls cs
      | none => none

/-- Whether the most recent `Init` or `Unload` of a sequence of calls is an `Init`. -/
def lastLifecycleIsInit (cs : List LifecycleCall) : Bool :=
  match (cs.filter fun c => match c with
      | .Init _ _ _ => true
      | .Unload => true
      | _ => false).getLast? with
  | some (.Init _ _ _) => true
  | _ => false

/-! ## One frame of the game loop -/

/-- The scene pass (main.cpp 589-606): `colorCorrect->Bind()` and the issuance loop. -/
def scenePass (cmds : List RendererComponent) : List FrameOp :=
  [.framebufferBind] ++ (issue cmds).ops

/-- The grading pass (main.cpp 608-648); `colorCorrectionShader` is the address of the
colour-correction Program. -/
def gradingPass (colorCorrectionShader : Nat) (colorOption : ℚ) : List FrameOp :=
  [.framebufferUnbind, .shaderBind colorCorrectionShader, .bindColorAsTexture 0 0] ++
    lutBranch colorOption ++ [.unbindTexture 0, .shaderUnBind colorCorrectionShader]

/-- The bind, unbind and draw operations of one frame (main.cpp 589-648), in program order. -/
def frameOps (colorCorrectionShader : Nat) (cmds : List RendererComponent) (colorOption : ℚ) :
    List FrameOp :=
  scenePass cmds ++ gradingPass colorCorrectionShader colorOption

/-- Number of fullscreen-quad draws in a sequence of operations. -/
def quadDraws (ops : List FrameOp) : Nat :=
  ops.countP fun op => match op with
    | .drawFullscreenQuad => true
    | _ => false

/-- The operations that the issuance loop can issue. -/
def FrameOp.isSceneOp : FrameOp → Bool
  | .shaderBind _ => true
  | .setupShaderForFrame _ => true
  | .materialApply _ => true
  | .renderVAO _ _ => true
  | _ => false

/-- The Programs bound by a sequence of operations, in order, one entry per bind. -/
def boundPrograms (ops : List FrameOp) : List Nat :=
  ops.filterMap fun op =>
    match op with
    | .shaderBind s => some s
    | _ => none

/-- A bind of the resource `r`, or an unbind, of one kind of resource. -/
inductive BindEvent (α : Type) where
  | bind (r : α)
  | unbind
  deriving DecidableEq, Repr

/-- The Program binds and unbinds of a sequence of operations (`Shader::Bind`,
`Shader::UnBind`); a Program is named by its address. -/
def programEvents (ops : List FrameOp) : List (BindEvent Nat) :=
  ops.filterMap fun op =>
    match op with
    | .shaderBind s => some (.bind s)
    | .shaderUnBind _ => some .unbind
    | _ => none

/-- The RenderTarget binds and unbinds of a sequence of operations; the frame has the single
target `colorCorrect`. -/
def targetEvents (ops : List FrameOp) : List (BindEvent Unit) :=
  ops.filterMap fun op =>
    match op with
    | .framebufferBind => some (.bind ())
    | .framebufferUnbind => some .unbind
    | _ => none

/-- The LookupTable binds and unbinds of a sequence of operations. -/
def lutEvents (ops : List FrameOp) : List (BindEvent LUT3D) :=
  ops.filterMap fun op =>
    match op with
    | .lutBind cube _ => some (.bind cube)
    | .lutUnbind _ _ => some .unbind
    | _ => none

/-- The pairing discipline of spec 3 for one kind of resource: starting with `cur` bound
(`none` when nothing is), no resource is bound while a different resource of the kind is
still bound. -/
def paired {α : Type} [DecidableEq α] : Option α → List (BindEvent α) → Bool
  | _, [] => true
  | cur, .bind r :: rest => (cur == none || cur == some r) && paired (some r) rest
  | _, .unbind :: rest => paired none rest

/-- What a sampler unit holds: a colour attachment of `colorCorrect`, a lookup table, or some
other texture, by name. -/
inductive SamplerBinding where
  | colorAttachment (colorBuffer : Nat)
  | lut (cube : LUT3D)
  | texture (name : Nat)
  deriving DecidableEq, Repr

/-- The GPU context as far as the frame touches it (spec 5 and 9): the address of the active
Program (0 when none is active), whether `colorCorrect` is the bound draw destination, and
what each sampler unit holds (`none` when unbound). -/
structure FrameContext where
  program : Nat
  targetBound : Bool
  samplers : Nat → Option SamplerBinding

/-- Effect of one frame operation on the context.  The bodies of `SetupShaderForFrame`,
`ShaderMaterial::Apply` and `RenderVAO` are not among the sources: their effect is the
parameter `callee`.  The other operations are modelled from the spec (4.1, 4.2, 6): the binds
set, and the unbinds clear, the Program, the draw destination or the sampler unit they name;
a fullscreen-quad draw changes no binding. -/
def FrameContext.exec (callee : FrameOp → FrameContext → FrameContext) (ctx : FrameContext) :
    FrameOp → FrameContext
  | .framebufferBind => { ctx with targetBound := true }
  | .framebufferUnbind => { ctx with targetBound := false }
  | .shaderBind s => { ctx with program := s }
  | .shaderUnBind _ => { ctx with program := 0 }
  | .setupShaderForFrame s => callee (.setupShaderForFrame s) ctx
  | .materialApply m => callee (.materialApply m) ctx
  | .renderVAO s mesh => callee (.renderVAO s mesh) ctx
  | .bindColorAsTexture colorBuffer slot =>
      { ctx with samplers := Function.update ctx.samplers slot (some (.colorAttachment colorBuffer)) }
  | .unbindTexture slot => { ctx with samplers := Function.update ctx.samplers slot none }
  | .lutBind cube slot =>
      { ctx with samplers := Function.update ctx.samplers slot (some (.lut cube)) }
  | .lutUnbind _ slot => { ctx with samplers := Function.update ctx.samplers slot none }
  | .drawFullscreenQuad => ctx

/-- The context after a sequence of frame operations, executed in order. -/
def FrameContext.run (callee : FrameOp → FrameContext → FrameContext) (ctx : FrameContext)
    (ops : List FrameOp) : FrameContext :=
  ops.foldl (FrameContext.exec callee) ctx

/-- A context with no Program active, no target bound and every sampler unit unbound. -/
def FrameContext.unbound : FrameContext :=
  { program := 0, targetBound := false, samplers := fun _ => none }

/-- Callees that leave the context as it is. -/
def calleeKeeps : FrameOp → FrameContext → FrameContext :=
  fun _ ctx => ctx

/-- Callees of which `ShaderMaterial::Apply` binds a texture of the material to sampler unit
1, as a material with a sampler uniform such as `s_Diffuse` (main.cpp 202) needs. -/
def calleeBindsUnit1 : FrameOp → FrameContext → FrameContext :=
  fun op ctx =>
    match op with
    | .materialApply m =>
        { ctx with samplers := Function.update ctx.samplers 1 (some (.texture m)) }
    | _ => ctx

/-- Number of draws (mesh draws and fullscreen quads) issued while `colorCorrect` is not the
bound draw destination, that is, drawn into the default destination, the screen; `bound`
says whether `colorCorrect` is bound at the start. -/
def screenDraws : Bool → List FrameOp → Nat
  | _, [] => 0
  | _, .framebufferBind :: rest => screenDraws true rest
  | _, .framebufferUnbind :: rest => screenDraws false rest
  | bound, .renderVAO _ _ :: rest => (if bound then 0 else 1) + screenDraws bound rest
  | bound, .drawFullscreenQuad :: rest => (if bound then 0 else 1) + screenDraws bound rest
  | bound, _ :: rest => screenDraws bound rest

/-- A context in which sampler unit 5 holds the texture called 77 and nothing else is
bound. -/
def FrameContext.unit5Bound : FrameContext :=
  { program := 0
    targetBound := false
    samplers := fun u => if u = 5 then some (.texture 77) else none }

/-! ## Theorems -/

/-- C1: for every selector value in the slider range `[0, 3]` the branch on `colorOption`
binds exactly one colour cube (none is skipped, none is bound twice), and the values 0, 1, 2
and 3 bind the Neutral, Cool, Warm and Custom cube. -/
theorem colorOption_selects_exactly_one (colorOption : ℚ)
    (_h0 : 0 ≤ colorOption) (h3 : colorOption ≤ 3) :
    (∃ cube, boundCubes (lutBranch colorOption) = [cube]) ∧
    boundCubes (lutBranch 0) = [LUT3D.defaultCube] ∧
    boundCubes (lutBranch 1) = [LUT3D.coolCube] ∧
    boundCubes (lutBranch 2) = [LUT3D.warmCube] ∧
    boundCubes (lutBranch 3) = [LUT3D.customCube] := by
  refine ⟨?_, ?_, ?_, ?_, ?_⟩
  · unfold lutBranch
    by_cases h1 : colorOption < 1
    · exact ⟨.defaultCube, by rw [if_pos h1]; rfl⟩
    · by_cases h2 : colorOption < 2
      · exact ⟨.coolCube, by rw [if_neg h1, if_pos h2]; rfl⟩
      · by_cases h4 : colorOption < 3
        · exact ⟨.warmCube, by rw [if_neg h1, if_neg h2, if_pos h4]; rfl⟩
        · have h5 : colorOption = 3 := le_antisymm h3 (not_lt.mp h4)
          exact ⟨.customCube, by rw [if_neg h1, if_neg h2, if_neg h4, if_pos h5]; rfl⟩
  · unfold lutBranch
    rw [if_pos (by norm_num)]; rfl
  · unfold lutBranch
    rw [if_neg (by norm_num), if_pos (by norm_num)]; rfl
  · unfold lutBranch
    rw [if_neg (by norm_num), if_neg (by norm_num), if_pos (by norm_num)]; rfl
  · unfold lutBranch
    rw [if_neg (by norm_num), if_neg (by norm_num), if_neg (by norm_num), if_pos rfl]; rfl

/-- Witness of C1 at the selector value 3/2, which binds the Cool cube. -/
theorem colorOption_selects_exactly_one_witness :
    (0 : ℚ) ≤ 3 / 2 ∧ (3 / 2 : ℚ) ≤ 3 ∧
    ((∃ cube, boundCubes (lutBranch (3 / 2)) = [cube]) ∧
      boundCubes (lutBranch 0) = [LUT3D.defaultCube] ∧
      boundCubes (lutBranch 1) = [LUT3D.coolCube] ∧
      boundCubes (lutBranch 2) = [LUT3D.warmCube] ∧
      boundCubes (lutBranch 3) = [LUT3D.customCube]) :=
  ⟨by norm_num, by norm_num,
    colorOption_selects_exactly_one (3 / 2) (by norm_num) (by norm_num)⟩

/-! ### The comparator -/

theorem comparator_eq_true_iff (l r : RendererComponent) :
    comparator l r = true ↔
      l.Material.RenderLayer < r.Material.RenderLayer ∨
      (l.Material.RenderLayer = r.Material.RenderLayer ∧
        (l.Material.Shader < r.Material.Shader ∨
          (l.Material.Shader = r.Material.Shader ∧ l.Material.addr < r.Material.addr))) := by
  unfold comparator
  split_ifs <;> simp <;> omega

theorem comparator_eq_false_iff (l r : RendererComponent) :
    comparator l r = false ↔
      r.Material.RenderLayer < l.Material.RenderLayer ∨
      (r.Material.RenderLayer = l.Material.RenderLayer ∧
        (r.Material.Shader < l.Material.Shader ∨
          (r.Material.Shader = l.Material.Shader ∧ r.Material.addr ≤ l.Material.addr))) := by
  unfold comparator
  split_ifs <;> simp <;> omega

theorem sortKey_lt_iff (l r : RendererComponent) :
    sortKey l < sortKey r ↔
      l.Material.RenderLayer < r.Material.RenderLayer ∨
      (l.Material.RenderLayer = r.Material.RenderLayer ∧
        (l.Material.Shader < r.Material.Shader ∨
          (l.Material.Shader = r.Material.Shader ∧ l.Material.addr < r.Material.addr))) := by
  unfold sortKey
  rw [Prod.Lex.lt_iff]
  simp only [Prod.Lex.lt_iff]

theorem sortKey_le_iff (l r : RendererComponent) :
    sortKey l ≤ sortKey r ↔
      l.Material.RenderLayer < r.Material.RenderLayer ∨
      (l.Material.RenderLayer = r.Material.RenderLayer ∧
        (l.Material.Shader < r.Material.Shader ∨
          (l.Material.Shader = r.Material.Shader ∧ l.Material.addr ≤ r.Material.addr))) := by
  unfold sortKey
  rw [Prod.Lex.le_iff]
  simp only [Prod.Lex.le_iff]

theorem sortKey_eq_iff (l r : RendererComponent) :
    sortKey l = sortKey r ↔
      l.Material.RenderLayer = r.Material.RenderLayer ∧
      l.Material.Shader = r.Material.Shader ∧ l.Material.addr = r.Material.addr := by
  unfold sortKey
  simp [Prod.ext_iff]

/-- C3: the comparator handed to `renderGroup.sort` is the strict lexicographic order on the
key (render layer, Program address, material address); it is irreflexive, asymmetric and
transitive, its incomparability relation is transitive, and two commands are incomparable
exactly when their keys are equal. -/
theorem comparator_strict_weak_order :
    (∀ l r, comparator l r = true ↔ sortKey l < sortKey r) ∧
    (∀ a, comparator a a = false) ∧
    (∀ a b, comparator a b = true → comparator b a = false) ∧
    (∀ a b c, comparator a b = true → comparator b c = true → comparator a c = true) ∧
    (∀ a b c, (comparator a b = false ∧ comparator b a = false) →
      (comparator b c = false ∧ comparator c b = false) →
      (comparator a c = false ∧ comparator c a = false)) ∧
    (∀ a b, (comparator a b = false ∧ comparator b a = false) ↔ sortKey a = sortKey b) := by
  refine ⟨?_, ?_, ?_, ?_, ?_, ?_⟩
  · intro l r
    rw [comparator_eq_true_iff, sortKey_lt_iff]
  · intro a
    rw [comparator_eq_false_iff]; omega
  · intro a b
    rw [comparator_eq_true_iff, comparator_eq_false_iff]; omega
  · intro a b c
    rw [comparator_eq_true_iff, comparator_eq_true_iff, comparator_eq_true_iff]; omega
  · intro a b c
    simp only [comparator_eq_false_iff]; omega
  · intro a b
    rw [sortKey_eq_iff]
    simp only [comparator_eq_false_iff]; omega

/-! ### Runs of equal values -/

theorem splitBy_loop_length (xs : List Nat) (ag : Nat) (g : List Nat) (gs : List (List Nat)) :
    (List.splitBy.loop (fun a b => a == b) xs ag g gs).length = gs.length + 1 + changes ag xs := by
  induction xs generalizing ag g gs with
  | nil => simp [List.splitBy.loop, changes]
  | cons x xs ih =>
    unfold List.splitBy.loop
    by_cases h : ag = x
    · subst h
      simp [ih, changes]
    · have hb : (ag == x) = false := by simpa using h
      simp [hb, ih, changes, h]
      omega

theorem runs_nil : runs [] = 0 := rfl

theorem runs_cons (x : Nat) (xs : List Nat) : runs (x :: xs) = 1 + changes x xs := by
  unfold runs
  rw [List.splitBy, splitBy_loop_length]
  simp

/-- With no null entry, the changes counted from a null start are the runs. -/
theorem changes_zero_eq_runs (xs : List Nat) (h : ∀ x ∈ xs, x ≠ 0) : changes 0 xs = runs xs := by
  cases xs with
  | nil => rfl
  | cons x xs =>
    have hx : (0 : Nat) ≠ x := fun e => h x (List.mem_cons_self _ _) e.symm
    rw [runs_cons, changes, if_pos hx]

/-! ### The issuance loop -/

theorem renderOne_current (st : IssueState) (r : RendererComponent) :
    (renderOne st r).current = r.Material.Shader := by
  by_cases h1 : st.current = r.Material.Shader <;>
    by_cases h2 : st.currentMat = r.Material.addr <;>
    simp [renderOne, applyIfChanged, bindIfChanged, h1, h2]

theorem renderOne_currentMat (st : IssueState) (r : RendererComponent) :
    (renderOne st r).currentMat = r.Material.addr := by
  by_cases h1 : st.current = r.Material.Shader <;>
    by_cases h2 : st.currentMat = r.Material.addr <;>
    simp [renderOne, applyIfChanged, bindIfChanged, h1, h2]

theorem renderOne_shaderBinds (st : IssueState) (r : RendererComponent) :
    shaderBinds (renderOne st r).ops =
      shaderBinds st.ops + (if st.current ≠ r.Material.Shader then 1 else 0) := by
  by_cases h1 : st.current = r.Material.Shader <;>
    by_cases h2 : st.currentMat = r.Material.addr <;>
    simp [renderOne, applyIfChanged, bindIfChanged, shaderBinds, h1, h2, List.countP_append,
      List.countP_cons]

theorem renderOne_shaderSetups (st : IssueState) (r : RendererComponent) :
    shaderSetups (renderOne st r).ops =
      shaderSetups st.ops + (if st.current ≠ r.Material.Shader then 1 else 0) := by
  by_cases h1 : st.current = r.Material.Shader <;>
    by_cases h2 : st.currentMat = r.Material.addr <;>
    simp [renderOne, applyIfChanged, bindIfChanged, shaderSetups, h1, h2, List.countP_append,
      List.countP_cons]

theorem renderOne_materialApplies (st : IssueState) (r : RendererComponent) :
    materialApplies (renderOne st r).ops =
      materialApplies st.ops + (if st.currentMat ≠ r.Material.addr then 1 else 0) := by
  by_cases h1 : st.current = r.Material.Shader <;>
    by_cases h2 : st.currentMat = r.Material.addr <;>
    simp [renderOne, applyIfChanged, bindIfChanged, materialApplies, h1, h2, List.countP_append,
      List.countP_cons]

theorem renderOne_meshDraws (st : IssueState) (r : RendererComponent) :
    meshDraws (renderOne st r).ops = meshDraws st.ops + 1 := by
  by_cases h1 : st.current = r.Material.Shader <;>
    by_cases h2 : st.currentMat = r.Material.addr <;>
    simp [renderOne, applyIfChanged, bindIfChanged, meshDraws, h1, h2, List.countP_append,
      List.countP_cons]

theorem foldl_renderOne_counts (cmds : List RendererComponent) (st : IssueState) :
    shaderBinds (cmds.foldl renderOne st).ops =
        shaderBinds st.ops + changes st.current (cmds.map fun c => c.Material.Shader) ∧
    shaderSetups (cmds.foldl renderOne st).ops =
        shaderSetups st.ops + changes st.current (cmds.map fun c => c.Material.Shader) ∧
    materialApplies (cmds.foldl renderOne st).ops =
        materialApplies st.ops + changes st.currentMat (cmds.map fun c => c.Material.addr) ∧
    meshDraws (cmds.foldl renderOne st).ops = meshDraws st.ops + cmds.length := by
  induction cmds generalizing st with
  | nil => simp [changes]
  | cons c cs ih =>
    obtain ⟨h1, h2, h3, h4⟩ := ih (renderOne st c)
    simp only [List.foldl_cons, List.map_cons, List.length_cons, changes]
    rw [h1, h2, h3, h4, renderOne_shaderBinds, renderOne_shaderSetups,
      renderOne_materialApplies, renderOne_meshDraws, renderOne_current, renderOne_currentMat]
    omega

theorem issue_counts (cmds : List RendererComponent) :
    shaderBinds (issue cmds).ops = changes 0 (cmds.map fun c => c.Material.Shader) ∧
    shaderSetups (issue cmds).ops = changes 0 (cmds.map fun c => c.Material.Shader) ∧
    materialApplies (issue cmds).ops = changes 0 (cmds.map fun c => c.Material.addr) ∧
    meshDraws (issue cmds).ops = cmds.length := by
  have h := foldl_renderOne_counts cmds { current := 0, currentMat := 0, ops := [] }
  simpa [issue, shaderBinds, shaderSetups, materialApplies, meshDraws] using h

/-- C2: starting from "no Program bound, no material applied", the issuance loop over
commands with non-null material and Program issues as many Program binds, and as many
per-frame uniform setups, as there are maximal runs of equal Program address, as many
material applies as there are maximal runs of equal material address, and one mesh draw per
command; the bind and apply counts are given by the runs alone, whatever the length. -/
theorem issue_counts_eq_runs (cmds : List RendererComponent)
    (hnn : ∀ c ∈ cmds, c.Material.addr ≠ 0 ∧ c.Material.Shader ≠ 0) :
    shaderBinds (issue cmds).ops = runs (cmds.map fun c => c.Material.Shader) ∧
    shaderSetups (issue cmds).ops = runs (cmds.map fun c => c.Material.Shader) ∧
    materialApplies (issue cmds).ops = runs (cmds.map fun c => c.Material.addr) ∧
    meshDraws (issue cmds).ops = cmds.length := by
  obtain ⟨h1, h2, h3, h4⟩ := issue_counts cmds
  have hs : ∀ x ∈ cmds.map (fun c => c.Material.Shader), x ≠ 0 := by
    intro x hx
    obtain ⟨c, hc, rfl⟩ := List.mem_map.mp hx
    exact (hnn c hc).2
  have hm : ∀ x ∈ cmds.map (fun c => c.Material.addr), x ≠ 0 := by
    intro x hx
    obtain ⟨c, hc, rfl⟩ := List.mem_map.mp hx
    exact (hnn c hc).1
  rw [h1, h2, h3, h4, changes_zero_eq_runs _ hs, changes_zero_eq_runs _ hm]
  exact ⟨rfl, rfl, rfl, rfl⟩

/-- Witness of C2: four commands over two Programs and three materials. -/
theorem issue_counts_eq_runs_witness :
    shaderBinds (issue [⟨1, ⟨10, 5, 0⟩⟩, ⟨2, ⟨10, 5, 0⟩⟩, ⟨3, ⟨11, 5, 0⟩⟩, ⟨4, ⟨12, 6, 0⟩⟩]).ops =
        runs ([⟨1, ⟨10, 5, 0⟩⟩, ⟨2, ⟨10, 5, 0⟩⟩, ⟨3, ⟨11, 5, 0⟩⟩, ⟨4, ⟨12, 6, 0⟩⟩].map
          fun c : RendererComponent => c.Material.Shader) ∧
    shaderSetups (issue [⟨1, ⟨10, 5, 0⟩⟩, ⟨2, ⟨10, 5, 0⟩⟩, ⟨3, ⟨11, 5, 0⟩⟩, ⟨4, ⟨12, 6, 0⟩⟩]).ops =
        runs ([⟨1, ⟨10, 5, 0⟩⟩, ⟨2, ⟨10, 5, 0⟩⟩, ⟨3, ⟨11, 5, 0⟩⟩, ⟨4, ⟨12, 6, 0⟩⟩].map
          fun c : RendererComponent => c.Material.Shader) ∧
    materialApplies
        (issue [⟨1, ⟨10, 5, 0⟩⟩, ⟨2, ⟨10, 5, 0⟩⟩, ⟨3, ⟨11, 5, 0⟩⟩, ⟨4, ⟨12, 6, 0⟩⟩]).ops =
        runs ([⟨1, ⟨10, 5, 0⟩⟩, ⟨2, ⟨10, 5, 0⟩⟩, ⟨3, ⟨11, 5, 0⟩⟩, ⟨4, ⟨12, 6, 0⟩⟩].map
          fun c : RendererComponent => c.Material.addr) ∧
    meshDraws (issue [⟨1, ⟨10, 5, 0⟩⟩, ⟨2, ⟨10, 5, 0⟩⟩, ⟨3, ⟨11, 5, 0⟩⟩, ⟨4, ⟨12, 6, 0⟩⟩]).ops =
        [(⟨1, ⟨10, 5, 0⟩⟩ : RendererComponent), ⟨2, ⟨10, 5, 0⟩⟩, ⟨3, ⟨11, 5, 0⟩⟩,
          ⟨4, ⟨12, 6, 0⟩⟩].length :=
  issue_counts_eq_runs _ (by decide)

/-! ### Sorting -/

theorem comparator_eq_false_iff_le (a b : RendererComponent) :
    comparator b a = false ↔ sortKey a ≤ sortKey b := by
  rw [comparator_eq_false_iff, sortKey_le_iff]

theorem sortCommands_perm (cmds : List RendererComponent) : (sortCommands cmds).Perm cmds :=
  List.perm_insertionSort _ cmds

theorem sortCommands_sorted (cmds : List RendererComponent) :
    (sortCommands cmds).Pairwise fun a b => comparator b a = false := by
  have htotal : IsTotal RendererComponent (fun a b => comparator b a = false) :=
    ⟨fun a b => by simp only [comparator_eq_false_iff_le]; exact le_total _ _⟩
  have htrans : IsTrans RendererComponent (fun a b => comparator b a = false) :=
    ⟨fun a b c => by simp only [comparator_eq_false_iff_le]; exact le_trans⟩
  exact @List.sorted_insertionSort _ (fun a b => comparator b a = false) _ htotal htrans cmds

/-- C4: sorting with the frame comparator is idempotent: sorting the sorted list again gives
the same order. -/
theorem sortCommands_idempotent (cmds : List RendererComponent) :
    sortCommands (sortCommands cmds) = sortCommands cmds :=
  List.Sorted.insertionSort_eq (sortCommands_sorted cmds)

/-- Two comparator-sorted arrangements of the same commands carry the same keys in the same
positions. -/
theorem sorted_perm_keys_eq (l₁ l₂ : List RendererComponent) (h : l₁.Perm l₂)
    (h₁ : l₁.Pairwise fun a b => comparator b a = false)
    (h₂ : l₂.Pairwise fun a b => comparator b a = false) :
    l₁.map sortKey = l₂.map sortKey := by
  have s₁ : (l₁.map sortKey).Sorted (· ≤ ·) := by
    rw [List.Sorted, List.pairwise_map]
    exact h₁.imp fun {a b} hab => (comparator_eq_false_iff_le a b).mp hab
  have s₂ : (l₂.map sortKey).Sorted (· ≤ ·) := by
    rw [List.Sorted, List.pairwise_map]
    exact h₂.imp fun {a b} hab => (comparator_eq_false_iff_le a b).mp hab
  exact List.eq_of_perm_of_sorted (h.map sortKey) s₁ s₂

theorem map_Shader_eq_of_keys (l₁ l₂ : List RendererComponent)
    (h : l₁.map sortKey = l₂.map sortKey) :
    (l₁.map fun c => c.Material.Shader) = l₂.map fun c => c.Material.Shader := by
  have := congrArg (List.map fun k : ℤ ×ₗ ℕ ×ₗ ℕ => (ofLex (ofLex k).2).1) h
  simpa [List.map_map, Function.comp_def, sortKey] using this

theorem map_addr_eq_of_keys (l₁ l₂ : List RendererComponent)
    (h : l₁.map sortKey = l₂.map sortKey) :
    (l₁.map fun c => c.Material.addr) = l₂.map fun c => c.Material.addr := by
  have := congrArg (List.map fun k : ℤ ×ₗ ℕ ×ₗ ℕ => (ofLex (ofLex k).2).2) h
  simpa [List.map_map, Function.comp_def, sortKey] using this

/-- C5: whatever sort is used, as long as it returns the same commands ordered by the frame
comparator, two input orders of the same multiset of commands lead to the same number of
Program binds and the same number of material applies once sorted and issued. -/
theorem sorted_issue_counts_order_independent
    (srt : List RendererComponent → List RendererComponent)
    (hperm : ∀ l, (srt l).Perm l)
    (hsorted : ∀ l, (srt l).Pairwise fun a b => comparator b a = false)
    (l₁ l₂ : List RendererComponent) (h : l₁.Perm l₂) :
    shaderBinds (issue (srt l₁)).ops = shaderBinds (issue (srt l₂)).ops ∧
    materialApplies (issue (srt l₁)).ops = materialApplies (issue (srt l₂)).ops := by
  have hk : (srt l₁).map sortKey = (srt l₂).map sortKey :=
    sorted_perm_keys_eq _ _ (((hperm l₁).trans h).trans (hperm l₂).symm) (hsorted l₁) (hsorted l₂)
  obtain ⟨a1, _, a3, _⟩ := issue_counts (srt l₁)
  obtain ⟨b1, _, b3, _⟩ := issue_counts (srt l₂)
  rw [a1, a3, b1, b3, map_Shader_eq_of_keys _ _ hk, map_addr_eq_of_keys _ _ hk]
  exact ⟨rfl, rfl⟩

/-- Witness of C5: two orders of the same three commands, two of which have equal keys and
different meshes, sorted by `sortCommands`. -/
theorem sorted_issue_counts_order_independent_witness :
    shaderBinds (issue (sortCommands [⟨1, ⟨10, 5, 0⟩⟩, ⟨2, ⟨10, 5, 0⟩⟩, ⟨3, ⟨12, 6, 0⟩⟩])).ops =
      shaderBinds (issue (sortCommands [⟨2, ⟨10, 5, 0⟩⟩, ⟨3, ⟨12, 6, 0⟩⟩, ⟨1, ⟨10, 5, 0⟩⟩])).ops ∧
    materialApplies
        (issue (sortCommands [⟨1, ⟨10, 5, 0⟩⟩, ⟨2, ⟨10, 5, 0⟩⟩, ⟨3, ⟨12, 6, 0⟩⟩])).ops =
      materialApplies
        (issue (sortCommands [⟨2, ⟨10, 5, 0⟩⟩, ⟨3, ⟨12, 6, 0⟩⟩, ⟨1, ⟨10, 5, 0⟩⟩])).ops :=
  sorted_issue_counts_order_independent sortCommands sortCommands_perm sortCommands_sorted
    [⟨1, ⟨10, 5, 0⟩⟩, ⟨2, ⟨10, 5, 0⟩⟩, ⟨3, ⟨12, 6, 0⟩⟩]
    [⟨2, ⟨10, 5, 0⟩⟩, ⟨3, ⟨12, 6, 0⟩⟩, ⟨1, ⟨10, 5, 0⟩⟩] (by decide)

/-- The model of the sort is stable: the commands that carry a given key come out in the order
in which they went in. -/
theorem sortCommands_stable (cmds : List RendererComponent) (k : ℤ ×ₗ ℕ ×ₗ ℕ) :
    (sortCommands cmds).filter (fun c => sortKey c = k) = cmds.filter fun c => sortKey c = k := by
  have ins : ∀ (a : RendererComponent) (l : List RendererComponent),
      (l.orderedInsert (fun a b => comparator b a = false) a).filter (fun c => sortKey c = k) =
        (a :: l).filter fun c => sortKey c = k := by
    intro a l
    induction l with
    | nil => simp
    | cons b l ih =>
      by_cases hab : comparator b a = false
      · simp [List.orderedInsert, hab]
      · have hlt : sortKey b < sortKey a := by
          rw [sortKey_lt_iff, ← comparator_eq_true_iff]; simpa using hab
        rw [List.orderedInsert, if_neg hab, List.filter_cons, ih]
        by_cases hb : sortKey b = k
        · have ha : sortKey a ≠ k := fun h => by rw [h, ← hb] at hlt; exact lt_irrefl _ hlt
          simp [List.filter_cons, hb, ha]
        · simp [List.filter_cons, hb]
  induction cmds with
  | nil => rfl
  | cons a l ih =>
    rw [sortCommands, List.insertionSort, ins, List.filter_cons, List.filter_cons]
    rw [sortCommands] at ih
    rw [ih]

/-! ### Sorted issuance and distinct Programs and materials -/

theorem runs_cons_cons (x y : Nat) (t : List Nat) :
    runs (x :: y :: t) = (if x ≠ y then 1 else 0) + runs (y :: t) := by
  rw [runs_cons, runs_cons, changes]; omega

/-- In a comparator-sorted list, a field of the commands that cannot reappear after a
different value has as many runs as distinct values. -/
theorem runs_eq_card_of_sorted (f : RendererComponent → Nat) (l : List RendererComponent)
    (hs : l.Pairwise fun a b => comparator b a = false)
    (hconv : ∀ a ∈ l, ∀ b ∈ l, ∀ c ∈ l, sortKey a ≤ sortKey b → sortKey b ≤ sortKey c →
      f a = f c → f a = f b) :
    runs (l.map f) = (l.map f).toFinset.card := by
  induction l with
  | nil => rfl
  | cons a l ih =>
    have hs' := (List.pairwise_cons.mp hs).2
    have ha := (List.pairwise_cons.mp hs).1
    have ih' := ih hs' fun x hx y hy z hz =>
      hconv x (List.mem_cons_of_mem _ hx) y (List.mem_cons_of_mem _ hy) z
        (List.mem_cons_of_mem _ hz)
    cases l with
    | nil => simp [runs_cons, changes]
    | cons b t =>
      have hb := (List.pairwise_cons.mp hs').1
      have key : f a ≠ f b ↔ f a ∉ ((b :: t).map f).toFinset := by
        constructor
        · intro hne hmem
          rw [List.mem_toFinset, List.mem_map] at hmem
          obtain ⟨c, hc, hfc⟩ := hmem
          apply hne
          have hab : sortKey a ≤ sortKey b :=
            (comparator_eq_false_iff_le a b).mp (ha b (List.mem_cons_self _ _))
          have hbc : sortKey b ≤ sortKey c := by
            rcases List.mem_cons.mp hc with rfl | hct
            · exact le_refl _
            · exact (comparator_eq_false_iff_le b c).mp (hb c hct)
          exact hconv a (List.mem_cons_self _ _) b
            (List.mem_cons_of_mem _ (List.mem_cons_self _ _)) c (List.mem_cons_of_mem _ hc)
            hab hbc hfc.symm
        · intro hnot he
          apply hnot
          rw [List.mem_toFinset, List.mem_map]
          exact ⟨b, List.mem_cons_self _ _, he.symm⟩
      rw [List.map_cons, List.toFinset_cons]
      rw [List.map_cons] at ih' key ⊢
      rw [runs_cons_cons, ih']
      by_cases hne : f a ≠ f b
      · rw [if_pos hne, Finset.card_insert_of_not_mem (key.mp hne)]; omega
      · have hmem : f a ∈ (f b :: t.map f).toFinset := by
          by_contra hnot
          exact hne (key.mpr hnot)
        rw [if_neg hne, Finset.insert_eq_of_mem hmem]; omega

/-- C6: when every material has one Program and one render layer, no Program is used in two
render layers, and no command has a null material or Program, then sorting by the frame
comparator (with any sort that returns the same commands in comparator order) and issuing
gives as many Program binds as distinct Programs and as many material applies as distinct
materials. -/
theorem sorted_issue_counts_eq_distinct
    (srt : List RendererComponent → List RendererComponent)
    (hperm : ∀ l, (srt l).Perm l)
    (hsorted : ∀ l, (srt l).Pairwise fun a b => comparator b a = false)
    (cmds : List RendererComponent)
    (hnn : ∀ c ∈ cmds, c.Material.addr ≠ 0 ∧ c.Material.Shader ≠ 0)
    (hmat : ∀ a ∈ cmds, ∀ b ∈ cmds, a.Material.addr = b.Material.addr →
      a.Material.Shader = b.Material.Shader ∧ a.Material.RenderLayer = b.Material.RenderLayer)
    (hlayer : ∀ a ∈ cmds, ∀ b ∈ cmds, a.Material.Shader = b.Material.Shader →
      a.Material.RenderLayer = b.Material.RenderLayer) :
    shaderBinds (issue (srt cmds)).ops = (cmds.map fun c => c.Material.Shader).toFinset.card ∧
    materialApplies (issue (srt cmds)).ops =
      (cmds.map fun c => c.Material.addr).toFinset.card := by
  have hp := hperm cmds
  have hmem : ∀ c, c ∈ srt cmds ↔ c ∈ cmds := fun c => hp.mem_iff
  have hnn' : ∀ c ∈ srt cmds, c.Material.addr ≠ 0 ∧ c.Material.Shader ≠ 0 :=
    fun c hc => hnn c ((hmem c).mp hc)
  have hs0 : ∀ x ∈ (srt cmds).map (fun c => c.Material.Shader), x ≠ 0 := by
    intro x hx
    obtain ⟨c, hc, rfl⟩ := List.mem_map.mp hx
    exact (hnn' c hc).2
  have hm0 : ∀ x ∈ (srt cmds).map (fun c => c.Material.addr), x ≠ 0 := by
    intro x hx
    obtain ⟨c, hc, rfl⟩ := List.mem_map.mp hx
    exact (hnn' c hc).1
  obtain ⟨h1, _, h3, _⟩ := issue_counts (srt cmds)
  rw [changes_zero_eq_runs _ hs0] at h1
  rw [changes_zero_eq_runs _ hm0] at h3
  have hS : runs ((srt cmds).map fun c => c.Material.Shader) =
      ((srt cmds).map fun c => c.Material.Shader).toFinset.card := by
    apply runs_eq_card_of_sorted _ _ (hsorted cmds)
    intro a ha b _ c hc hab hbc hac
    have hl := hlayer a ((hmem a).mp ha) c ((hmem c).mp hc) hac
    rw [sortKey_le_iff] at hab hbc
    omega
  have hM : runs ((srt cmds).map fun c => c.Material.addr) =
      ((srt cmds).map fun c => c.Material.addr).toFinset.card := by
    apply runs_eq_card_of_sorted _ _ (hsorted cmds)
    intro a ha b _ c hc hab hbc hac
    have hl := hmat a ((hmem a).mp ha) c ((hmem c).mp hc) hac
    rw [sortKey_le_iff] at hab hbc
    omega
  rw [h1, h3, hS, hM, List.toFinset_eq_of_perm _ _ (hp.map _),
    List.toFinset_eq_of_perm _ _ (hp.map _)]
  exact ⟨rfl, rfl⟩

/-- Witness of C6: the 100 commands of `hundredCommands`, sorted by `sortCommands`, issue
exactly 2 Program binds and 5 material applies. -/
theorem sorted_issue_counts_eq_distinct_witness :
    shaderBinds (issue (sortCommands hundredCommands)).ops = 2 ∧
    materialApplies (issue (sortCommands hundredCommands)).ops = 5 := by
  have h := sorted_issue_counts_eq_distinct sortCommands sortCommands_perm sortCommands_sorted
    hundredCommands (by set_option maxRecDepth 100000 in decide)
    (by set_option maxRecDepth 100000 in decide) (by set_option maxRecDepth 100000 in decide)
  have e1 : (hundredCommands.map fun c => c.Material.Shader).toFinset.card = 2 := by
    set_option maxRecDepth 100000 in decide
  have e2 : (hundredCommands.map fun c => c.Material.addr).toFinset.card = 5 := by
    set_option maxRecDepth 100000 in decide
  rw [e1, e2] at h
  exact h

/-! ### `PostEffect::Unload` -/

/-- State of the loop of `Unload` after `k` iterations: the first `k` slots are null, the
others untouched, and the non-null slots among the first `k` have been released. -/
theorem unload_fold (bufs : List (Option Framebuffer)) (k : Nat) (hk : k ≤ bufs.length) :
    (List.range k).foldl PostEffect.unloadStep (bufs, []) =
      (List.replicate k none ++ bufs.drop k, PostEffect.releasedUpTo bufs k) := by
  induction k with
  | zero => simp [PostEffect.releasedUpTo]
  | succ k ih =>
    have hlt : k < bufs.length := hk
    rw [List.range_succ, List.foldl_append, ih (Nat.le_of_lt hlt)]
    have hd := List.drop_eq_getElem_cons hlt
    have hget : (List.replicate k (none : Option Framebuffer) ++ bufs.drop k)[k]? =
        some bufs[k] := by
      rw [List.getElem?_append_right (by simp), hd]; simp
    have hrel : PostEffect.releasedUpTo bufs (k + 1) =
        PostEffect.releasedUpTo bufs k ++
          (match bufs[k]? with
            | some (some fb) => [(k, fb)]
            | _ => []) := by
      unfold PostEffect.releasedUpTo
      rw [List.range_succ, List.filterMap_append]
      congr 1
      rcases hb : bufs[k]? with _ | _ | fb <;> simp [hb]
    have hk' : bufs[k]? = some bufs[k] := List.getElem?_eq_getElem hlt
    simp only [List.foldl_cons, List.foldl_nil, PostEffect.unloadStep, hget]
    rw [hrel, hk', List.replicate_succ', List.append_assoc]
    rcases hb : bufs[k] with _ | fb
    · simp [hd, hb]
    · simp only [List.singleton_append]
      rw [List.set_append_right _ _ (by simp), hd]
      simp [hb]

theorem releasedUpTo_replicate_none (n k : Nat) :
    PostEffect.releasedUpTo (List.replicate n none) k = [] := by
  unfold PostEffect.releasedUpTo
  rw [List.filterMap_eq_nil_iff]
  intro i _
  rw [List.getElem?_replicate]
  split_ifs <;> rfl

theorem Unload_eq (p : PostEffect) :
    p.Unload =
      ({ _buffers := List.replicate p._buffers.length none, _shaders := [] },
        PostEffect.releasedUpTo p._buffers p._buffers.length) := by
  unfold PostEffect.Unload
  rw [unload_fold _ _ (le_refl _)]
  simp

/-- C10: `Unload` is idempotent.  After one call every slot of `_buffers` is null (the list
keeps its length), `_shaders` is empty, and exactly the slots that held a target have been
released, each once; a second call releases nothing and leaves the pass as it was. -/
theorem Unload_idempotent (p : PostEffect) :
    p.Unload.1._buffers = List.replicate p._buffers.length none ∧
    p.Unload.1._shaders = [] ∧
    (∀ i fb, (i, fb) ∈ p.Unload.2 ↔ p._buffers[i]? = some (some fb)) ∧
    (p.Unload.2.map Prod.fst).Nodup ∧
    p.Unload.1.Unload = (p.Unload.1, []) := by
  refine ⟨by rw [Unload_eq], by rw [Unload_eq], ?_, ?_, ?_⟩
  · intro i fb
    rw [Unload_eq]
    simp only [PostEffect.releasedUpTo, List.mem_filterMap, List.mem_range]
    constructor
    · rintro ⟨j, _, hj⟩
      rcases hb : p._buffers[j]? with _ | _ | fb' <;> rw [hb] at hj <;> simp at hj
      obtain ⟨rfl, rfl⟩ := hj
      exact hb
    · intro h
      have hlt : i < p._buffers.length := by
        by_contra hge
        rw [List.getElem?_eq_none (not_lt.mp hge)] at h
        exact Option.noConfusion h
      exact ⟨i, hlt, by rw [h]⟩
  · rw [Unload_eq]
    simp only [PostEffect.releasedUpTo, List.map_filterMap]
    apply List.Nodup.filterMap _ (List.nodup_range _)
    intro a a' b hb hb'
    rcases ha : p._buffers[a]? with _ | _ | fb <;> rw [ha] at hb <;> simp at hb
    rcases ha' : p._buffers[a']? with _ | _ | fb' <;> rw [ha'] at hb' <;> simp at hb'
    rw [hb, hb']
  · rw [Unload_eq, Unload_eq]
    simp [releasedUpTo_replicate_none]

/-! ### `PostEffect::ApplyEffect` and `PostEffect::DrawToScreen` -/

theorem Initialised_slots (p : PostEffect) (h : p.Initialised = true) :
    ∃ fb, p._buffers[0]? = some (some fb) ∧ fb.handle ≠ 0 ∧
      fb.colorTargets = [ColorFormat.GL_RGBA8] ∧ fb.depthTarget = true ∧
      p._shaders[0]? = some passthroughProgram ∧ p.target = fb.handle := by
  unfold PostEffect.Initialised at h
  rcases hb : p._buffers[0]? with _ | _ | fb
  · rw [hb] at h; simp at h
  · rw [hb] at h; simp at h
  · rcases hs : p._shaders[0]? with _ | s
    · rw [hb, hs] at h; simp at h
    · rw [hb, hs] at h
      simp only [Bool.and_eq_true, bne_iff_ne, beq_iff_eq] at h
      obtain ⟨⟨⟨h1, h2⟩, h3⟩, h4⟩ := h
      exact ⟨fb, rfl, h1, h2, h3, by rw [h4], by simp [PostEffect.target, hb]⟩

theorem ApplyEffect_eq (p previous : PostEffect) (s : Shader) (fb fbp : Framebuffer)
    (hs : p._shaders[0]? = some s) (hb : p._buffers[0]? = some (some fb))
    (hpb : previous._buffers[0]? = some (some fbp)) (hc : 0 < fbp.colorTargets.length) :
    p.ApplyEffect previous =
      some [.useProgram (some s), .bindTexture 0 (some (fbp.handle, 0)),
        .bindFramebuffer fb.handle, .drawFullscreenQuad, .bindFramebuffer 0,
        .bindTexture 0 none, .useProgram none] := by
  simp [PostEffect.ApplyEffect, PostEffect.BindShader, PostEffect.BindColorAsTexture,
    Framebuffer.BindColorAsTexture, hs, hb, hpb, hc, Shader.Bind, Framebuffer.RenderToFSQ,
    Framebuffer.Bind, Framebuffer.DrawFullscreenQuad, Framebuffer.Unbind,
    PostEffect.UnbindTexture, PostEffect.UnbindShader]

theorem DrawToScreen_eq (p : PostEffect) (s : Shader) (fb : Framebuffer)
    (hs : p._shaders[0]? = some s) (hb : p._buffers[0]? = some (some fb))
    (hc : 0 < fb.colorTargets.length) :
    p.DrawToScreen =
      some [.useProgram (some s), .bindTexture 0 (some (fb.handle, 0)), .drawFullscreenQuad,
        .bindTexture 0 none, .useProgram none] := by
  simp [PostEffect.DrawToScreen, PostEffect.BindShader, PostEffect.BindColorAsTexture,
    Framebuffer.BindColorAsTexture, hs, hb, hc, Shader.Bind, Framebuffer.DrawFullscreenQuad,
    PostEffect.UnbindTexture, PostEffect.UnbindShader]

theorem run_append {Img : Type} (sem : Shader → Img → Img) (ctx : GlContext Img)
    (a b : List GlCall) : ctx.run sem (a ++ b) = (ctx.run sem a).run sem b := by
  simp [GlContext.run, List.foldl_append]

/-- Context after the calls of `ApplyEffect`: Program, draw destination and sampler unit 0 are
unbound, the target of the pass holds the transform of the input, the screen is untouched. -/
theorem run_ApplyEffect_calls {Img : Type} (sem : Shader → Img → Img) (ctx : GlContext Img)
    (s : Shader) (own input : Nat) (hown : own ≠ 0) :
    (ctx.run sem [.useProgram (some s), .bindTexture 0 (some (input, 0)),
        .bindFramebuffer own, .drawFullscreenQuad, .bindFramebuffer 0,
        .bindTexture 0 none, .useProgram none]).program = none ∧
    (ctx.run sem [.useProgram (some s), .bindTexture 0 (some (input, 0)),
        .bindFramebuffer own, .drawFullscreenQuad, .bindFramebuffer 0,
        .bindTexture 0 none, .useProgram none]).drawFramebuffer = 0 ∧
    (ctx.run sem [.useProgram (some s), .bindTexture 0 (some (input, 0)),
        .bindFramebuffer own, .drawFullscreenQuad, .bindFramebuffer 0,
        .bindTexture 0 none, .useProgram none]).textureUnits 0 = none ∧
    (ctx.run sem [.useProgram (some s), .bindTexture 0 (some (input, 0)),
        .bindFramebuffer own, .drawFullscreenQuad, .bindFramebuffer 0,
        .bindTexture 0 none, .useProgram none]).color =
      Function.update ctx.color (own, 0) (sem s (ctx.color (input, 0))) ∧
    (ctx.run sem [.useProgram (some s), .bindTexture 0 (some (input, 0)),
        .bindFramebuffer own, .drawFullscreenQuad, .bindFramebuffer 0,
        .bindTexture 0 none, .useProgram none]).screen = ctx.screen := by
  simp [GlContext.run, GlContext.exec, hown]

/-- Context after the calls of `DrawToScreen`: the draw destination is the one bound before
the call, and the quad went there. -/
theorem run_DrawToScreen_calls {Img : Type} (sem : Shader → Img → Img) (ctx : GlContext Img)
    (s : Shader) (own : Nat) :
    (ctx.run sem [.useProgram (some s), .bindTexture 0 (some (own, 0)), .drawFullscreenQuad,
        .bindTexture 0 none, .useProgram none]).program = none ∧
    (ctx.run sem [.useProgram (some s), .bindTexture 0 (some (own, 0)), .drawFullscreenQuad,
        .bindTexture 0 none, .useProgram none]).drawFramebuffer = ctx.drawFramebuffer ∧
    (ctx.run sem [.useProgram (some s), .bindTexture 0 (some (own, 0)), .drawFullscreenQuad,
        .bindTexture 0 none, .useProgram none]).textureUnits 0 = none ∧
    (ctx.drawFramebuffer = 0 →
      (ctx.run sem [.useProgram (some s), .bindTexture 0 (some (own, 0)), .drawFullscreenQuad,
          .bindTexture 0 none, .useProgram none]).screen = sem s (ctx.color (own, 0)) ∧
      (ctx.run sem [.useProgram (some s), .bindTexture 0 (some (own, 0)), .drawFullscreenQuad,
          .bindTexture 0 none, .useProgram none]).color = ctx.color) ∧
    (ctx.drawFramebuffer ≠ 0 →
      (ctx.run sem [.useProgram (some s), .bindTexture 0 (some (own, 0)), .drawFullscreenQuad,
          .bindTexture 0 none, .useProgram none]).screen = ctx.screen ∧
      (ctx.run sem [.useProgram (some s), .bindTexture 0 (some (own, 0)), .drawFullscreenQuad,
          .bindTexture 0 none, .useProgram none]).color =
        Function.update ctx.color (ctx.drawFramebuffer, 0) (sem s (ctx.color (own, 0)))) := by
  by_cases h : ctx.drawFramebuffer = 0 <;> simp [GlContext.run, GlContext.exec, h]

/-- C7, counterexample: for two freshly initialised passes, `ApplyEffect` binds the input
texture right after the Program and binds its own target as draw destination only afterwards,
inside `RenderToFSQ`; the order of the claim (Program, target, input texture, draw, unbind
texture) is not even a subsequence of the calls made. -/
theorem ApplyEffect_binds_target_after_texture :
    (PostEffect.fresh.Init 800 600 1).Initialised = true ∧
    (PostEffect.fresh.Init 800 600 2).Initialised = true ∧
    (PostEffect.fresh.Init 800 600 1).ApplyEffect (PostEffect.fresh.Init 800 600 2) =
      some [.useProgram (some passthroughProgram), .bindTexture 0 (some (2, 0)),
        .bindFramebuffer 1, .drawFullscreenQuad, .bindFramebuffer 0,
        .bindTexture 0 none, .useProgram none] ∧
    ¬ List.Sublist
      [GlCall.useProgram (some passthroughProgram), .bindFramebuffer 1,
        .bindTexture 0 (some (2, 0)), .drawFullscreenQuad, .bindTexture 0 none]
      [GlCall.useProgram (some passthroughProgram), .bindTexture 0 (some (2, 0)),
        .bindFramebuffer 1, .drawFullscreenQuad, .bindFramebuffer 0,
        .bindTexture 0 none, .useProgram none] := by
  refine ⟨by decide, by decide, by decide, by decide⟩

/-- C7, amended: for initialised passes `ApplyEffect` makes exactly these calls, in this
order: bind the slot-0 Program, bind colour attachment 0 of the slot-0 target of `previous`
on sampler unit 0, bind the own slot-0 target as draw destination, draw the fullscreen quad,
unbind the draw destination, unbind sampler unit 0, unbind the Program.  Afterwards sampler
unit 0 and the active Program are unbound and the own target holds the transform of the
input. -/
theorem ApplyEffect_calls_in_order {Img : Type} (sem : Shader → Img → Img)
    (ctx : GlContext Img) (p previous : PostEffect)
    (hp : p.Initialised = true) (hprev : previous.Initialised = true) :
    ∃ calls, p.ApplyEffect previous = some calls ∧
      p._shaders[0]? = some passthroughProgram ∧
      calls = [.useProgram (some passthroughProgram),
        .bindTexture 0 (some (previous.target, 0)), .bindFramebuffer p.target,
        .drawFullscreenQuad, .bindFramebuffer 0, .bindTexture 0 none, .useProgram none] ∧
      (ctx.run sem calls).textureUnits 0 = none ∧
      (ctx.run sem calls).program = none ∧
      (ctx.run sem calls).color (p.target, 0) =
        sem passthroughProgram (ctx.color (previous.target, 0)) := by
  obtain ⟨fb, hb, hne, _, _, hs, ht⟩ := Initialised_slots p hp
  obtain ⟨fbp, hpb, _, hcol, _, _, htp⟩ := Initialised_slots previous hprev
  have hc : 0 < fbp.colorTargets.length := by rw [hcol]; decide
  refine ⟨_, ApplyEffect_eq p previous _ fb fbp hs hb hpb hc, hs, by rw [ht, htp], ?_⟩
  obtain ⟨h1, _, h3, h4, _⟩ :=
    run_ApplyEffect_calls sem ctx passthroughProgram fb.handle fbp.handle hne
  refine ⟨h3, h1, ?_⟩
  rw [h4, ht, htp, Function.update_same]

/-- Witness of C7 (amended): two freshly initialised passes in `sampleContext 0`. -/
theorem ApplyEffect_calls_in_order_witness :
    ∃ calls, (PostEffect.fresh.Init 800 600 1).ApplyEffect (PostEffect.fresh.Init 800 600 2) =
        some calls ∧
      (PostEffect.fresh.Init 800 600 1)._shaders[0]? = some passthroughProgram ∧
      calls = [.useProgram (some passthroughProgram),
        .bindTexture 0 (some ((PostEffect.fresh.Init 800 600 2).target, 0)),
        .bindFramebuffer (PostEffect.fresh.Init 800 600 1).target,
        .drawFullscreenQuad, .bindFramebuffer 0, .bindTexture 0 none, .useProgram none] ∧
      ((sampleContext 0).run sampleSem calls).textureUnits 0 = none ∧
      ((sampleContext 0).run sampleSem calls).program = none ∧
      ((sampleContext 0).run sampleSem calls).color ((PostEffect.fresh.Init 800 600 1).target, 0) =
        sampleSem passthroughProgram
          ((sampleContext 0).color ((PostEffect.fresh.Init 800 600 2).target, 0)) :=
  ApplyEffect_calls_in_order sampleSem (sampleContext 0) (PostEffect.fresh.Init 800 600 1)
    (PostEffect.fresh.Init 800 600 2) (by decide) (by decide)

/-- C9, counterexample: with the framebuffer called 7 bound as draw destination,
`DrawToScreen` on a freshly initialised pass leaves the screen as it was and writes colour
attachment 0 of framebuffer 7: the quad is drawn into a RenderTarget. -/
theorem DrawToScreen_draws_into_bound_target :
    (PostEffect.fresh.Init 800 600 1).Initialised = true ∧
    (sampleContext 7).drawFramebuffer = 7 ∧
    (PostEffect.fresh.Init 800 600 1).DrawToScreen =
      some [.useProgram (some passthroughProgram), .bindTexture 0 (some (1, 0)),
        .drawFullscreenQuad, .bindTexture 0 none, .useProgram none] ∧
    ((sampleContext 7).run sampleSem
      [.useProgram (some passthroughProgram), .bindTexture 0 (some (1, 0)),
        .drawFullscreenQuad, .bindTexture 0 none, .useProgram none]).screen =
      (sampleContext 7).screen ∧
    (sampleContext 7).color (7, 0) = 5 ∧
    ((sampleContext 7).run sampleSem
      [.useProgram (some passthroughProgram), .bindTexture 0 (some (1, 0)),
        .drawFullscreenQuad, .bindTexture 0 none, .useProgram none]).color (7, 0) = 6 := by
  refine ⟨by decide, rfl, by decide, ?_, rfl, ?_⟩
  · simp [GlContext.run, GlContext.exec, sampleContext]
  · simp [GlContext.run, GlContext.exec, sampleContext, sampleSem]

/-- C9, amended: for every initialised pass and every context, `DrawToScreen` binds the
slot-0 Program, binds colour attachment 0 of its own slot-0 target on sampler unit 0 and
draws the fullscreen quad into the draw destination that is bound at the call, which it does
not change; when the default destination is bound at the call the quad goes to the screen and
no RenderTarget is written. -/
theorem DrawToScreen_draws_into_bound_destination {Img : Type} (sem : Shader → Img → Img)
    (ctx : GlContext Img) (p : PostEffect) (hp : p.Initialised = true) :
    ∃ calls, p.DrawToScreen = some calls ∧
      p._shaders[0]? = some passthroughProgram ∧
      calls = [.useProgram (some passthroughProgram), .bindTexture 0 (some (p.target, 0)),
        .drawFullscreenQuad, .bindTexture 0 none, .useProgram none] ∧
      (ctx.run sem calls).drawFramebuffer = ctx.drawFramebuffer ∧
      (ctx.drawFramebuffer = 0 →
        (ctx.run sem calls).screen = sem passthroughProgram (ctx.color (p.target, 0)) ∧
        (ctx.run sem calls).color = ctx.color) := by
  obtain ⟨fb, hb, _, hcol, _, hs, ht⟩ := Initialised_slots p hp
  have hc : 0 < fb.colorTargets.length := by rw [hcol]; decide
  refine ⟨_, DrawToScreen_eq p _ fb hs hb hc, hs, by rw [ht], ?_⟩
  obtain ⟨_, h2, _, h4, _⟩ := run_DrawToScreen_calls sem ctx passthroughProgram fb.handle
  refine ⟨h2, fun h0 => ?_⟩
  rw [ht]
  exact h4 h0

/-- Witness of C9 (amended): a freshly initialised pass in `sampleContext 0`. -/
theorem DrawToScreen_draws_into_bound_destination_witness :
    ∃ calls, (PostEffect.fresh.Init 800 600 1).DrawToScreen = some calls ∧
      (PostEffect.fresh.Init 800 600 1)._shaders[0]? = some passthroughProgram ∧
      calls = [.useProgram (some passthroughProgram),
        .bindTexture 0 (some ((PostEffect.fresh.Init 800 600 1).target, 0)),
        .drawFullscreenQuad, .bindTexture 0 none, .useProgram none] ∧
      ((sampleContext 0).run sampleSem calls).drawFramebuffer =
        (sampleContext 0).drawFramebuffer ∧
      ((sampleContext 0).drawFramebuffer = 0 →
        ((sampleContext 0).run sampleSem calls).screen =
          sampleSem passthroughProgram
            ((sampleContext 0).color ((PostEffect.fresh.Init 800 600 1).target, 0)) ∧
        ((sampleContext 0).run sampleSem calls).color = (sampleContext 0).color) :=
  DrawToScreen_draws_into_bound_destination sampleSem (sampleContext 0)
    (PostEffect.fresh.Init 800 600 1) (by decide)

/-! ### Chains of passes -/

/-- What a chain presents, for passes with any slot-0 Program: the transforms of the passes
after the first are applied in chain order to the colour content of the first target (each
`ApplyEffect` runs the Program of the pass that is applied), and `DrawToScreen` then applies
the transform of the last pass to the result. -/
theorem chain_screen {Img : Type} (sem : Shader → Img → Img) (rest : List PostEffect) :
    ∀ (ctx : GlContext Img) (prev : PostEffect),
      (∀ p ∈ prev :: rest, ∃ fb s, p._buffers[0]? = some (some fb) ∧ fb.handle ≠ 0 ∧
        0 < fb.colorTargets.length ∧ p._shaders[0]? = some s) →
      (rest ≠ [] ∨ ctx.drawFramebuffer = 0) →
      ∃ calls, chainCalls prev rest = some calls ∧
        (ctx.run sem calls).screen =
          (rest.getLastD prev).transform sem
            (rest.foldl (fun img p => p.transform sem img) (ctx.color (prev.target, 0))) := by
  induction rest with
  | nil =>
    intro ctx prev hready hdest
    obtain ⟨fb, s, hb, _, hc, hs⟩ := hready prev (List.mem_cons_self _ _)
    have h0 : ctx.drawFramebuffer = 0 := hdest.resolve_left (fun h => h rfl)
    refine ⟨_, by rw [chainCalls]; exact DrawToScreen_eq prev s fb hs hb hc, ?_⟩
    obtain ⟨_, _, _, h4, _⟩ := run_DrawToScreen_calls sem ctx s fb.handle
    rw [(h4 h0).1]
    simp [PostEffect.transform, PostEffect.target, hs, hb]
  | cons next rest ih =>
    intro ctx prev hready _
    obtain ⟨fbp, sp, hpb, _, hpc, _⟩ := hready prev (List.mem_cons_self _ _)
    obtain ⟨fbn, sn, hnb, hne, _, hns⟩ :=
      hready next (List.mem_cons_of_mem _ (List.mem_cons_self _ _))
    have ha := ApplyEffect_eq next prev sn fbn fbp hns hnb hpb hpc
    obtain ⟨_, h2, _, h4, _⟩ := run_ApplyEffect_calls sem ctx sn fbn.handle fbp.handle hne
    obtain ⟨r, hr, hscreen⟩ := ih
      (ctx.run sem [.useProgram (some sn), .bindTexture 0 (some (fbp.handle, 0)),
        .bindFramebuffer fbn.handle, .drawFullscreenQuad, .bindFramebuffer 0,
        .bindTexture 0 none, .useProgram none]) next
      (fun p hp => hready p (List.mem_cons_of_mem _ hp)) (Or.inr h2)
    refine ⟨_, by rw [chainCalls, ha, hr], ?_⟩
    have htn : next.target = fbn.handle := by simp [PostEffect.target, hnb]
    have htp : prev.target = fbp.handle := by simp [PostEffect.target, hpb]
    have hTn : next.transform sem = sem sn := by simp [PostEffect.transform, hns]
    rw [run_append, hscreen, h4, List.getLastD_cons, List.foldl_cons, htn, htp, hTn,
      Function.update_same]

theorem foldl_transform_eq_iterate {Img : Type} (sem : Shader → Img → Img) (T : Img → Img)
    (ps : List PostEffect) (h : ∀ p ∈ ps, p.transform sem = T) (c : Img) :
    ps.foldl (fun img p => p.transform sem img) c = T^[ps.length] c := by
  induction ps generalizing c with
  | nil => rfl
  | cons p ps ih =>
    rw [List.foldl_cons, ih (fun q hq => h q (List.mem_cons_of_mem _ hq)),
      h p (List.mem_cons_self _ _), List.length_cons, Function.iterate_succ_apply]

theorem getLastD_mem_cons (rest : List PostEffect) (d : PostEffect) :
    rest.getLastD d ∈ d :: rest := by
  induction rest generalizing d with
  | nil => simp
  | cons a rest ih =>
    rw [List.getLastD_cons]
    exact List.mem_cons_of_mem _ (ih a)

/-- C8, counterexample: the chain that consists of one freshly initialised pass, run while the
framebuffer called 7 is the bound draw destination.  `DrawToScreen` leaves the screen at 0,
whereas the transform of the pass applied to the content 5 of its target is 6. -/
theorem single_pass_chain_misses_screen :
    (PostEffect.fresh.Init 800 600 1).Initialised = true ∧
    chainCalls (PostEffect.fresh.Init 800 600 1) [] =
      some [.useProgram (some passthroughProgram), .bindTexture 0 (some (1, 0)),
        .drawFullscreenQuad, .bindTexture 0 none, .useProgram none] ∧
    ((sampleContext 7).run sampleSem
      [.useProgram (some passthroughProgram), .bindTexture 0 (some (1, 0)),
        .drawFullscreenQuad, .bindTexture 0 none, .useProgram none]).screen = 0 ∧
    [PostEffect.fresh.Init 800 600 1].foldl (fun img p => p.transform sampleSem img)
      ((sampleContext 7).color ((PostEffect.fresh.Init 800 600 1).target, 0)) = 6 := by
  refine ⟨by decide, by decide, ?_, by decide⟩
  simp [GlContext.run, GlContext.exec, sampleContext]

/-- C8, amended: for a chain of initialised passes `P1, rest` run as `P2.ApplyEffect(P1)`,
..., `Pn.ApplyEffect(Pn-1)`, `Pn.DrawToScreen()`, started with the default destination bound
when the chain is the single pass `P1`, the screen ends up holding the transforms of the
slot-0 Programs of `P1, ..., Pn`, applied in chain order to the colour content of the slot-0
target of `P1`. -/
theorem chain_presents_composition {Img : Type} (sem : Shader → Img → Img)
    (ctx : GlContext Img) (P1 : PostEffect) (rest : List PostEffect)
    (hinit : ∀ p ∈ P1 :: rest, p.Initialised = true)
    (hdest : rest ≠ [] ∨ ctx.drawFramebuffer = 0) :
    ∃ calls, chainCalls P1 rest = some calls ∧
      (ctx.run sem calls).screen =
        (P1 :: rest).foldl (fun img p => p.transform sem img) (ctx.color (P1.target, 0)) := by
  have hT : ∀ p ∈ P1 :: rest, p.transform sem = sem passthroughProgram := by
    intro p hp
    obtain ⟨_, _, _, _, _, hs, _⟩ := Initialised_slots p (hinit p hp)
    simp [PostEffect.transform, hs]
  have hready : ∀ p ∈ P1 :: rest, ∃ fb s, p._buffers[0]? = some (some fb) ∧ fb.handle ≠ 0 ∧
      0 < fb.colorTargets.length ∧ p._shaders[0]? = some s := by
    intro p hp
    obtain ⟨fb, hb, hne, hcol, _, hs, _⟩ := Initialised_slots p (hinit p hp)
    exact ⟨fb, _, hb, hne, by rw [hcol]; decide, hs⟩
  obtain ⟨calls, hcalls, hscreen⟩ := chain_screen sem rest ctx P1 hready hdest
  refine ⟨calls, hcalls, ?_⟩
  rw [hscreen, hT _ (getLastD_mem_cons rest P1),
    foldl_transform_eq_iterate sem _ rest (fun p hp => hT p (List.mem_cons_of_mem _ hp)),
    foldl_transform_eq_iterate sem _ (P1 :: rest) hT, List.length_cons,
    Function.iterate_succ_apply']

/-- Witness of C8: a chain of three freshly initialised passes; with a Program semantics that
adds 1, the content 5 of the first target reaches the screen as 8. -/
theorem chain_presents_composition_witness :
    ∃ calls, chainCalls (PostEffect.fresh.Init 800 600 1)
        [PostEffect.fresh.Init 800 600 2, PostEffect.fresh.Init 800 600 3] = some calls ∧
      ((sampleContext 0).run sampleSem calls).screen = 8 :=
  chain_presents_composition sampleSem (sampleContext 0) (PostEffect.fresh.Init 800 600 1)
    [PostEffect.fresh.Init 800 600 2, PostEffect.fresh.Init 800 600 3] (by decide)
    (Or.inl (by decide))

/-! ### One frame: shape of the operation sequence -/

theorem renderOne_ops_scene (st : IssueState) (r : RendererComponent)
    (h : ∀ op ∈ st.ops, op.isSceneOp = true) : ∀ op ∈ (renderOne st r).ops, op.isSceneOp = true := by
  intro op hop
  by_cases h1 : st.current = r.Material.Shader <;>
    by_cases h2 : st.currentMat = r.Material.addr <;>
    simp [renderOne, applyIfChanged, bindIfChanged, h1, h2] at hop <;>
    rcases hop with hop | hop <;>
    first
      | exact h op hop
      | (subst hop; rfl)
      | (rcases hop with hop | hop <;> first
          | (subst hop; rfl)
          | (rcases hop with hop | hop <;> first
              | (subst hop; rfl)
              | (rcases hop with hop | hop <;> subst hop <;> rfl)))

theorem foldl_renderOne_ops_scene (cmds : List RendererComponent) (st : IssueState)
    (h : ∀ op ∈ st.ops, op.isSceneOp = true) :
    ∀ op ∈ (cmds.foldl renderOne st).ops, op.isSceneOp = true := by
  induction cmds generalizing st with
  | nil => exact h
  | cons c cs ih => exact ih (renderOne st c) (renderOne_ops_scene st c h)

/-- The issuance loop issues Program binds, uniform setups, material applies and mesh draws,
and nothing else. -/
theorem issue_ops_scene (cmds : List RendererComponent) :
    ∀ op ∈ (issue cmds).ops, op.isSceneOp = true :=
  foldl_renderOne_ops_scene cmds _ (by simp)

theorem scene_ops_events (ops : List FrameOp) (h : ∀ op ∈ ops, op.isSceneOp = true) :
    targetEvents ops = [] ∧ lutEvents ops = [] ∧ boundCubes ops = [] ∧ quadDraws ops = 0 ∧
      programEvents ops = (boundPrograms ops).map BindEvent.bind := by
  induction ops with
  | nil => exact ⟨rfl, rfl, rfl, rfl, rfl⟩
  | cons op ops ih =>
    obtain ⟨h1, h2, h3, h4, h5⟩ := ih fun o ho => h o (List.mem_cons_of_mem _ ho)
    have hop := h op (List.mem_cons_self _ _)
    unfold targetEvents lutEvents boundCubes quadDraws programEvents boundPrograms at *
    cases op <;> simp_all [FrameOp.isSceneOp]

theorem lutBranch_cases (colorOption : ℚ) :
    (3 < colorOption ∧ lutBranch colorOption = []) ∨
    (colorOption ≤ 3 ∧ ∃ cube, lutBranch colorOption =
      [.lutBind cube 30, .drawFullscreenQuad, .lutUnbind cube 30]) := by
  unfold lutBranch
  by_cases h1 : colorOption < 1
  · exact Or.inr ⟨by linarith, .defaultCube, by rw [if_pos h1]⟩
  · by_cases h2 : colorOption < 2
    · exact Or.inr ⟨by linarith, .coolCube, by rw [if_neg h1, if_pos h2]⟩
    · by_cases h3 : colorOption < 3
      · exact Or.inr ⟨by linarith, .warmCube, by rw [if_neg h1, if_neg h2, if_pos h3]⟩
      · by_cases h4 : colorOption = 3
        · exact Or.inr ⟨by linarith, .customCube,
            by rw [if_neg h1, if_neg h2, if_neg h3, if_pos h4]⟩
        · refine Or.inl ⟨lt_of_le_of_ne (not_lt.mp h3) (Ne.symm h4), ?_⟩
          rw [if_neg h1, if_neg h2, if_neg h3, if_neg h4]

theorem frameOps_boundCubes (cc : Nat) (cmds : List RendererComponent) (colorOption : ℚ) :
    boundCubes (frameOps cc cmds colorOption) = boundCubes (lutBranch colorOption) := by
  obtain ⟨_, _, h3, _, _⟩ := scene_ops_events _ (issue_ops_scene cmds)
  unfold boundCubes at h3 ⊢
  simp [frameOps, scenePass, gradingPass, List.filterMap_append, h3]

theorem frameOps_quadDraws (cc : Nat) (cmds : List RendererComponent) (colorOption : ℚ) :
    quadDraws (frameOps cc cmds colorOption) = quadDraws (lutBranch colorOption) := by
  obtain ⟨_, _, _, h4, _⟩ := scene_ops_events _ (issue_ops_scene cmds)
  unfold quadDraws at h4 ⊢
  simp [frameOps, scenePass, gradingPass, List.countP_append, List.countP_cons, h4]

theorem screenDraws_scene_ops (ops rest : List FrameOp) (h : ∀ op ∈ ops, op.isSceneOp = true) :
    screenDraws true (ops ++ rest) = screenDraws true rest := by
  induction ops with
  | nil => rfl
  | cons op ops ih =>
    have hop := h op (List.mem_cons_self _ _)
    have ih' := ih fun o ho => h o (List.mem_cons_of_mem _ ho)
    cases op <;> simp_all [FrameOp.isSceneOp, screenDraws]

theorem frameOps_screenDraws (cc : Nat) (cmds : List RendererComponent) (colorOption : ℚ) :
    screenDraws false (frameOps cc cmds colorOption) = quadDraws (lutBranch colorOption) := by
  have h := screenDraws_scene_ops (issue cmds).ops (gradingPass cc colorOption)
    (issue_ops_scene cmds)
  have h0 : screenDraws false (frameOps cc cmds colorOption) =
      screenDraws true ((issue cmds).ops ++ gradingPass cc colorOption) := by
    simp [frameOps, scenePass, screenDraws]
  rw [h0, h]
  rcases lutBranch_cases colorOption with ⟨_, hb⟩ | ⟨_, cube, hb⟩ <;>
    simp [gradingPass, hb, screenDraws, quadDraws]

/-! ### The grading pass -/

/-- C13: in every frame with the selector in `[0, 3]` the grading pass binds exactly one
lookup table, to sampler unit 30, draws the fullscreen quad once while it is bound, and
unbinds the same table from unit 30 as the very next operation; the frame has no other
lookup-table bind and no other fullscreen-quad draw. -/
theorem gradingPass_binds_one_cube (cc : Nat) (cmds : List RendererComponent) (colorOption : ℚ)
    (_h0 : 0 ≤ colorOption) (h3 : colorOption ≤ 3) :
    ∃ cube,
      gradingPass cc colorOption =
        [.framebufferUnbind, .shaderBind cc, .bindColorAsTexture 0 0, .lutBind cube 30,
          .drawFullscreenQuad, .lutUnbind cube 30, .unbindTexture 0, .shaderUnBind cc] ∧
      boundCubes (frameOps cc cmds colorOption) = [cube] ∧
      quadDraws (frameOps cc cmds colorOption) = 1 := by
  rcases lutBranch_cases colorOption with ⟨hgt, _⟩ | ⟨_, cube, hb⟩
  · exact absurd h3 (not_le.mpr hgt)
  · refine ⟨cube, ?_, ?_, ?_⟩
    · simp [gradingPass, hb]
    · rw [frameOps_boundCubes, hb]; rfl
    · rw [frameOps_quadDraws, hb]; rfl

/-- Witness of C13: two commands, the colour-correction Program at address 9, selector 5/2
(the Warm table). -/
theorem gradingPass_binds_one_cube_witness :
    ∃ cube,
      gradingPass 9 (5 / 2) =
        [.framebufferUnbind, .shaderBind 9, .bindColorAsTexture 0 0, .lutBind cube 30,
          .drawFullscreenQuad, .lutUnbind cube 30, .unbindTexture 0, .shaderUnBind 9] ∧
      boundCubes (frameOps 9 [⟨1, ⟨10, 5, 0⟩⟩, ⟨2, ⟨11, 6, 0⟩⟩] (5 / 2)) = [cube] ∧
      quadDraws (frameOps 9 [⟨1, ⟨10, 5, 0⟩⟩, ⟨2, ⟨11, 6, 0⟩⟩] (5 / 2)) = 1 :=
  gradingPass_binds_one_cube 9 [⟨1, ⟨10, 5, 0⟩⟩, ⟨2, ⟨11, 6, 0⟩⟩] (5 / 2) (by norm_num)
    (by norm_num)

/-- C15: for every rational selector the frame binds at most one lookup table and draws the
fullscreen quad exactly when it bound one; every value below 1, negative ones included,
selects the Neutral table; for every value above 3 the grading pass binds no table and draws
no quad, so the frame draws nothing into the screen. -/
theorem gradingPass_any_selector (cc : Nat) (cmds : List RendererComponent) (colorOption : ℚ) :
    (boundCubes (frameOps cc cmds colorOption)).length ≤ 1 ∧
    quadDraws (frameOps cc cmds colorOption) =
      (boundCubes (frameOps cc cmds colorOption)).length ∧
    (colorOption < 1 → boundCubes (frameOps cc cmds colorOption) = [LUT3D.defaultCube]) ∧
    (3 < colorOption →
      gradingPass cc colorOption =
        [.framebufferUnbind, .shaderBind cc, .bindColorAsTexture 0 0, .unbindTexture 0,
          .shaderUnBind cc] ∧
      boundCubes (frameOps cc cmds colorOption) = [] ∧
      quadDraws (frameOps cc cmds colorOption) = 0 ∧
      screenDraws false (frameOps cc cmds colorOption) = 0) := by
  rw [frameOps_boundCubes, frameOps_quadDraws, frameOps_screenDraws]
  refine ⟨?_, ?_, ?_, ?_⟩
  · rcases lutBranch_cases colorOption with ⟨_, hb⟩ | ⟨_, cube, hb⟩ <;> rw [hb] <;>
      simp [boundCubes]
  · rcases lutBranch_cases colorOption with ⟨_, hb⟩ | ⟨_, cube, hb⟩ <;> rw [hb] <;> rfl
  · intro h1
    unfold lutBranch
    rw [if_pos h1]; rfl
  · intro hgt
    rcases lutBranch_cases colorOption with ⟨_, hb⟩ | ⟨hle, _⟩
    · refine ⟨by simp [gradingPass, hb], ?_, ?_, ?_⟩ <;> rw [hb] <;> rfl
    · exact absurd hle (not_le.mpr hgt)

/-- Witness of C15: selector -1 selects the Neutral table, selector 4 draws nothing into the
screen. -/
theorem gradingPass_any_selector_witness :
    boundCubes (frameOps 9 [⟨1, ⟨10, 5, 0⟩⟩] (-1)) = [LUT3D.defaultCube] ∧
    (gradingPass 9 4 =
        [.framebufferUnbind, .shaderBind 9, .bindColorAsTexture 0 0, .unbindTexture 0,
          .shaderUnBind 9] ∧
      boundCubes (frameOps 9 [⟨1, ⟨10, 5, 0⟩⟩] 4) = [] ∧
      quadDraws (frameOps 9 [⟨1, ⟨10, 5, 0⟩⟩] 4) = 0 ∧
      screenDraws false (frameOps 9 [⟨1, ⟨10, 5, 0⟩⟩] 4) = 0) :=
  ⟨(gradingPass_any_selector 9 [⟨1, ⟨10, 5, 0⟩⟩] (-1)).2.2.1 (by norm_num),
    (gradingPass_any_selector 9 [⟨1, ⟨10, 5, 0⟩⟩] 4).2.2.2 (by norm_num)⟩

/-! ### Bind and unbind pairing over one frame -/

theorem frameOps_targetEvents (cc : Nat) (cmds : List RendererComponent) (colorOption : ℚ) :
    targetEvents (frameOps cc cmds colorOption) = [.bind (), .unbind] := by
  obtain ⟨h1, _, _, _, _⟩ := scene_ops_events _ (issue_ops_scene cmds)
  unfold targetEvents at h1 ⊢
  rcases lutBranch_cases colorOption with ⟨_, hb⟩ | ⟨_, cube, hb⟩ <;>
    simp [frameOps, scenePass, gradingPass, List.filterMap_append, h1, hb]

theorem frameOps_lutEvents (cc : Nat) (cmds : List RendererComponent) (colorOption : ℚ) :
    lutEvents (frameOps cc cmds colorOption) = [] ∨
      ∃ cube, lutEvents (frameOps cc cmds colorOption) = [.bind cube, .unbind] := by
  obtain ⟨_, h2, _, _, _⟩ := scene_ops_events _ (issue_ops_scene cmds)
  unfold lutEvents at h2 ⊢
  rcases lutBranch_cases colorOption with ⟨_, hb⟩ | ⟨_, cube, hb⟩
  · left
    simp [frameOps, scenePass, gradingPass, List.filterMap_append, h2, hb]
  · right
    exact ⟨cube, by simp [frameOps, scenePass, gradingPass, List.filterMap_append, h2, hb]⟩

theorem frameOps_programEvents (cc : Nat) (cmds : List RendererComponent) (colorOption : ℚ) :
    programEvents (frameOps cc cmds colorOption) =
      (boundPrograms (issue cmds).ops).map BindEvent.bind ++ [.bind cc, .unbind] := by
  obtain ⟨_, _, _, _, h5⟩ := scene_ops_events _ (issue_ops_scene cmds)
  unfold programEvents at h5 ⊢
  rcases lutBranch_cases colorOption with ⟨_, hb⟩ | ⟨_, cube, hb⟩ <;>
    simp [frameOps, scenePass, gradingPass, List.filterMap_append, h5, hb]

theorem mem_boundPrograms (ops : List FrameOp) (s : Nat) :
    s ∈ boundPrograms ops ↔ FrameOp.shaderBind s ∈ ops := by
  unfold boundPrograms
  rw [List.mem_filterMap]
  constructor
  · rintro ⟨op, hop, h⟩
    cases op <;> simp at h
    subst h
    exact hop
  · intro h
    exact ⟨_, h, rfl⟩

/-- A run of Program binds followed by the bind and unbind of `cc` keeps the pairing
discipline exactly when every Program of the run is `cc`. -/
theorem paired_binds_then (cc : Nat) (xs : List Nat) (cur : Option Nat) :
    paired cur (xs.map BindEvent.bind ++ [.bind cc, .unbind]) = true ↔
      (∀ x ∈ xs, x = cc) ∧ (cur = none ∨ cur = some cc) := by
  induction xs generalizing cur with
  | nil => simp [paired]
  | cons x xs ih =>
    have step : paired cur ((x :: xs).map BindEvent.bind ++ [.bind cc, .unbind]) =
        ((cur == none || cur == some x) &&
          paired (some x) (xs.map BindEvent.bind ++ [.bind cc, .unbind])) := rfl
    rw [step, Bool.and_eq_true, ih, Bool.or_eq_true, beq_iff_eq, beq_iff_eq]
    constructor
    · rintro ⟨hc, hall, hx⟩
      have hx' : x = cc := by
        rcases hx with hx | hx
        · exact absurd hx (by simp)
        · exact Option.some.inj hx
      subst hx'
      refine ⟨?_, hc⟩
      intro y hy
      rcases List.mem_cons.mp hy with rfl | hy
      · rfl
      · exact hall y hy
    · rintro ⟨hall, hc⟩
      have hx : x = cc := hall x (List.mem_cons_self _ _)
      subst hx
      exact ⟨hc, fun y hy => hall y (List.mem_cons_of_mem _ hy), Or.inr rfl⟩

/-- C11, counterexample: a sorted sequence of two commands with the distinct Programs 5 and
6, the colour-correction Program at address 9.  The frame binds 5, then 6, then 9 and only
then unbinds: two Programs are bound while another one is still bound. -/
theorem frame_rebinds_program_without_unbind :
    sortCommands [⟨1, ⟨10, 5, 0⟩⟩, ⟨2, ⟨11, 6, 0⟩⟩] = [⟨1, ⟨10, 5, 0⟩⟩, ⟨2, ⟨11, 6, 0⟩⟩] ∧
    programEvents (frameOps 9 [⟨1, ⟨10, 5, 0⟩⟩, ⟨2, ⟨11, 6, 0⟩⟩] 0) =
      [.bind 5, .bind 6, .bind 9, .unbind] ∧
    paired none (programEvents (frameOps 9 [⟨1, ⟨10, 5, 0⟩⟩, ⟨2, ⟨11, 6, 0⟩⟩] 0)) = false := by
  rw [frameOps_programEvents]
  refine ⟨by decide, by decide, by decide⟩

/-- C11, amended: in the operations of one frame, for every command sequence and selector,
every bind of the RenderTarget and every bind of a LookupTable is followed by an unbind of
that kind before another resource of the kind is bound.  The scene pass never unbinds a
Program (each stays bound until the next bind replaces it) and the only Program unbind of the
frame is the last operation, after the bind of the colour-correction Program; so for
Programs the pairing holds exactly when the scene pass binds no Program other than the
colour-correction Program. -/
theorem frame_bind_discipline (cc : Nat) (cmds : List RendererComponent) (colorOption : ℚ) :
    paired none (targetEvents (frameOps cc cmds colorOption)) = true ∧
    paired none (lutEvents (frameOps cc cmds colorOption)) = true ∧
    programEvents (frameOps cc cmds colorOption) =
      (boundPrograms (issue cmds).ops).map BindEvent.bind ++ [.bind cc, .unbind] ∧
    (paired none (programEvents (frameOps cc cmds colorOption)) = true ↔
      ∀ s, FrameOp.shaderBind s ∈ (issue cmds).ops → s = cc) := by
  refine ⟨?_, ?_, frameOps_programEvents cc cmds colorOption, ?_⟩
  · rw [frameOps_targetEvents]; rfl
  · rcases frameOps_lutEvents cc cmds colorOption with h | ⟨cube, h⟩ <;> rw [h] <;>
      simp [paired]
  · rw [frameOps_programEvents, paired_binds_then]
    simp [mem_boundPrograms]

/-! ### The context at the end of a frame -/

theorem frameRun_append (callee : FrameOp → FrameContext → FrameContext)
    (ctx : FrameContext) (a b : List FrameOp) :
    ctx.run callee (a ++ b) = (ctx.run callee a).run callee b := by
  simp [FrameContext.run, List.foldl_append]

/-- Context after the grading pass: the Program and sampler unit 0 are unbound, sampler unit
30 is unbound when a branch of the selector was taken, and no other unit is touched. -/
theorem run_gradingPass (callee : FrameOp → FrameContext → FrameContext) (ctx : FrameContext)
    (cc : Nat) (colorOption : ℚ) :
    (ctx.run callee (gradingPass cc colorOption)).program = 0 ∧
    (ctx.run callee (gradingPass cc colorOption)).samplers 0 = none ∧
    (colorOption ≤ 3 → (ctx.run callee (gradingPass cc colorOption)).samplers 30 = none) ∧
    (∀ u, u ≠ 0 → u ≠ 30 →
      (ctx.run callee (gradingPass cc colorOption)).samplers u = ctx.samplers u) := by
  rcases lutBranch_cases colorOption with ⟨hgt, hb⟩ | ⟨_, cube, hb⟩
  · refine ⟨?_, ?_, fun h => absurd h (not_le.mpr hgt), ?_⟩
    · simp [gradingPass, hb, FrameContext.run, FrameContext.exec]
    · simp [gradingPass, hb, FrameContext.run, FrameContext.exec]
    · intro u hu _
      simp [gradingPass, hb, FrameContext.run, FrameContext.exec, Function.update, hu]
  · refine ⟨?_, ?_, fun _ => ?_, ?_⟩
    · simp [gradingPass, hb, FrameContext.run, FrameContext.exec]
    · simp [gradingPass, hb, FrameContext.run, FrameContext.exec]
    · simp [gradingPass, hb, FrameContext.run, FrameContext.exec, Function.update]
    · intro u hu hu'
      simp [gradingPass, hb, FrameContext.run, FrameContext.exec, Function.update, hu, hu']

/-- C12, counterexample: the frame leaves sampler units other than 0 and 30 as they are.
With no command and sampler unit 5 bound at the start, unit 5 is still bound at the end; and
starting from a context with nothing bound, one command whose material apply binds a
texture to unit 1 leaves unit 1 bound at the end. -/
theorem frame_leaves_other_units_bound :
    (FrameContext.unit5Bound.run calleeKeeps (frameOps 9 [] 0)).samplers 5 =
      some (.texture 77) ∧
    FrameContext.unbound.samplers 1 = none ∧
    (FrameContext.unbound.run calleeBindsUnit1 (frameOps 9 [⟨1, ⟨10, 5, 0⟩⟩] 0)).samplers 1 =
      some (.texture 10) := by
  refine ⟨?_, rfl, ?_⟩
  · rw [frameOps, frameRun_append,
      (run_gradingPass calleeKeeps _ 9 0).2.2.2 5 (by decide) (by decide)]
    rfl
  · rw [frameOps, frameRun_append,
      (run_gradingPass calleeBindsUnit1 _ 9 0).2.2.2 1 (by decide) (by decide)]
    rfl

/-- C12, amended: for every frame, whatever the context at its start, the command sequence,
the effect of the callees of the scene pass and the selector value in `[0, 3]`, the context at
the end of the frame has no active Program and sampler units 0 and 30 unbound; every other
sampler unit is as the scene pass left it. -/
theorem frame_end_context (callee : FrameOp → FrameContext → FrameContext)
    (start : FrameContext) (cc : Nat) (cmds : List RendererComponent) (colorOption : ℚ)
    (_h0 : 0 ≤ colorOption) (h3 : colorOption ≤ 3) :
    (start.run callee (frameOps cc cmds colorOption)).program = 0 ∧
    (start.run callee (frameOps cc cmds colorOption)).samplers 0 = none ∧
    (start.run callee (frameOps cc cmds colorOption)).samplers 30 = none ∧
    (∀ u, u ≠ 0 → u ≠ 30 →
      (start.run callee (frameOps cc cmds colorOption)).samplers u =
        (start.run callee (scenePass cmds)).samplers u) := by
  rw [frameOps, frameRun_append]
  obtain ⟨h1, h2, h30, hrest⟩ :=
    run_gradingPass callee (start.run callee (scenePass cmds)) cc colorOption
  exact ⟨h1, h2, h30 h3, hrest⟩

/-- Witness of C12 (amended): one command, callees whose material apply binds unit 1,
selector 3, starting with sampler unit 5 bound. -/
theorem frame_end_context_witness :
    (FrameContext.unit5Bound.run calleeBindsUnit1 (frameOps 9 [⟨1, ⟨10, 5, 0⟩⟩] 3)).program = 0 ∧
    (FrameContext.unit5Bound.run calleeBindsUnit1 (frameOps 9 [⟨1, ⟨10, 5, 0⟩⟩] 3)).samplers 0 =
      none ∧
    (FrameContext.unit5Bound.run calleeBindsUnit1 (frameOps 9 [⟨1, ⟨10, 5, 0⟩⟩] 3)).samplers 30 =
      none ∧
    (∀ u, u ≠ 0 → u ≠ 30 →
      (FrameContext.unit5Bound.run calleeBindsUnit1
          (frameOps 9 [⟨1, ⟨10, 5, 0⟩⟩] 3)).samplers u =
        (FrameContext.unit5Bound.run calleeBindsUnit1
          (scenePass [⟨1, ⟨10, 5, 0⟩⟩])).samplers u) :=
  frame_end_context calleeBindsUnit1 FrameContext.unit5Bound 9 [⟨1, ⟨10, 5, 0⟩⟩] 3
    (by norm_num) (by norm_num)

/-! ### Lifecycle of a pass -/

theorem fresh_Init_Initialised (width height name : Nat) (hn : name ≠ 0) :
    (PostEffect.fresh.Init width height name).Initialised = true := by
  simp [PostEffect.Initialised, PostEffect.Init, PostEffect.fresh, Framebuffer.Init,
    Framebuffer.AddDepthTarget, Framebuffer.AddColorTarget, Framebuffer.new, hn]

theorem Init_keeps_Initialised (p : PostEffect) (width height name : Nat)
    (hp : p.Initialised = true) : (p.Init width height name).Initialised = true := by
  obtain ⟨bufs, shaders⟩ := p
  cases bufs with
  | nil => simp [PostEffect.Initialised] at hp
  | cons b bs =>
    cases shaders with
    | nil =>
      cases b <;> simp [PostEffect.Initialised] at hp
    | cons s ss => simpa [PostEffect.Initialised, PostEffect.Init] using hp

theorem Reshape_keeps_Initialised (p q : PostEffect) (width height : Nat)
    (hp : p.Initialised = true) (hq : p.Reshape width height = some q) :
    q.Initialised = true := by
  unfold PostEffect.Reshape at hq
  split_ifs at hq
  cases hq
  obtain ⟨bufs, shaders⟩ := p
  cases bufs with
  | nil => simp [PostEffect.Initialised] at hp
  | cons b bs =>
    cases shaders with
    | nil =>
      cases b <;> simp [PostEffect.Initialised] at hp
    | cons s ss =>
      cases b with
      | none => simp [PostEffect.Initialised] at hp
      | some fb => simpa [PostEffect.Initialised, Framebuffer.Reshape] using hp

/-- Where the safety property does hold: as long as `Unload` is never called, every call
sequence that runs through keeps an initialised pass initialised. -/
theorem calls_without_Unload_keep_Initialised (cs : List LifecycleCall)
    (hno : ∀ c ∈ cs, c ≠ LifecycleCall.Unload) :
    ∀ p q : PostEffect, p.Initialised = true → p.calls cs = some q → q.Initialised = true := by
  induction cs with
  | nil =>
    intro p q hp hq
    simp only [PostEffect.calls, Option.some.injEq] at hq
    exact hq ▸ hp
  | cons c cs ih =>
    intro p q hp hq
    have ih' := ih fun d hd => hno d (List.mem_cons_of_mem _ hd)
    have hc := hno c (List.mem_cons_self _ _)
    cases c with
    | Init w h n =>
      exact ih' _ q (Init_keeps_Initialised p w h n hp)
        (by simpa [PostEffect.calls, PostEffect.call] using hq)
    | Reshape w h =>
      rcases hr : p.Reshape w h with _ | r
      · simp [PostEffect.calls, PostEffect.call, hr] at hq
      · exact ih' r q (Reshape_keeps_Initialised p r w h hp hr)
          (by simpa [PostEffect.calls, PostEffect.call, hr] using hq)
    | Clear =>
      rcases hr : p.Clear with _ | r
      · simp [PostEffect.calls, PostEffect.call, hr] at hq
      · exact ih' p q hp (by simpa [PostEffect.calls, PostEffect.call, hr] using hq)
    | Unload => exact absurd rfl hc

/-- C14, at the failing sequence: `Init`, `Unload`, `Init` on a fresh pass.  `Unload` nulls
slot 0 of `_buffers` without removing it and empties `_shaders`, and the second `Init`
appends: slot 0 of `_buffers` is null and the new target sits in slot 1, so the pass is not
initialised and `DrawToScreen`, `ApplyEffect`, `Reshape` and `Clear` dereference a null
slot. -/
theorem Init_Unload_Init_leaves_slot_null :
    lastLifecycleIsInit [.Init 800 600 1, .Unload, .Init 800 600 2] = true ∧
    PostEffect.fresh.calls [.Init 800 600 1, .Unload, .Init 800 600 2] =
      some { _buffers := [none, some ⟨2, [ColorFormat.GL_RGBA8], true, 800, 600⟩]
             _shaders := [passthroughProgram] } ∧
    PostEffect.Initialised
      { _buffers := [none, some ⟨2, [ColorFormat.GL_RGBA8], true, 800, 600⟩]
        _shaders := [passthroughProgram] } = false ∧
    PostEffect.DrawToScreen
      { _buffers := [none, some ⟨2, [ColorFormat.GL_RGBA8], true, 800, 600⟩]
        _shaders := [passthroughProgram] } = none ∧
    PostEffect.ApplyEffect
      { _buffers := [none, some ⟨2, [ColorFormat.GL_RGBA8], true, 800, 600⟩]
        _shaders := [passthroughProgram] } (PostEffect.fresh.Init 800 600 3) = none ∧
    PostEffect.Reshape
      { _buffers := [none, some ⟨2, [ColorFormat.GL_RGBA8], true, 800, 600⟩]
        _shaders := [passthroughProgram] } 1024 768 = none ∧
    PostEffect.Clear
      { _buffers := [none, some ⟨2, [ColorFormat.GL_RGBA8], true, 800, 600⟩]
        _shaders := [passthroughProgram] } = none := by
  refine ⟨by decide, by decide, by decide, by decide, by decide, by decide, by decide⟩

end GraphicsTests
